import Mathlib

/-!
TransparentTriangle: a verification development.

Shallow embedding of `src/src/TransparentTriangle.cpp`.

Number model.  The source computes on IEEE `float` (and, inside `intersect`,
on `double`).  This development reads every such number as an exact element
of an ordered field: the utilities that use only field operations and
comparisons are written over an arbitrary linearly ordered field `K` (and so
can be evaluated over `ℚ`), and the code that needs `sqrtf` or `atan2` is
written over `ℝ`.  Rounding, overflow, infinities and NaN are outside this
model; a statement about it is a statement of exact arithmetic.

Where the outcome of the code turns on a tie between rounded lengths, the
relabeling and the decomposition of `Render` are read a second time in
namespace `Binary32`, with the result of every `float` operation rounded to
IEEE 754 binary32.

Effect model.  `Render` and `RenderRightTriangle` return nothing and act on
the canvas; here they return the list of canvas calls they issue, in order.
-/

/-! ## Vector2F -/

/-- Modelled from the spec: the host SDK type `Vector2F` (declared in
`bakkesmod/wrappers/wrapperstructs.h`, which is not part of the sources):
a pair `(X, Y)` of numbers with value equality. -/
structure Vector2F (K : Type) where
  X : K
  Y : K

namespace Vector2F

variable {K : Type} [LinearOrderedField K]

/-- Modelled from the spec: the default-constructed `Vector2F()`, which the
spec calls the origin point `(0,0)`. -/
instance : Zero (Vector2F K) := ⟨⟨0, 0⟩⟩

/-- Modelled from the spec: `Vector2F` addition (componentwise). -/
instance : Add (Vector2F K) := ⟨fun v w => ⟨v.X + w.X, v.Y + w.Y⟩⟩

/-- Modelled from the spec: `Vector2F` subtraction (componentwise). -/
instance : Sub (Vector2F K) := ⟨fun v w => ⟨v.X - w.X, v.Y - w.Y⟩⟩

/-- Modelled from the spec: `Vector2F` division by a `Vector2F`
(componentwise). -/
instance : Div (Vector2F K) := ⟨fun v w => ⟨v.X / w.X, v.Y / w.Y⟩⟩

/-- Modelled from the spec: `Vector2F` scalar multiply, `v * t`. -/
def scale (v : Vector2F K) (t : K) : Vector2F K := ⟨v.X * t, v.Y * t⟩

/-- Modelled from the spec: `Vector2F` scalar subtract (componentwise),
`v - t`. -/
def subScalar (v : Vector2F K) (t : K) : Vector2F K := ⟨v.X - t, v.Y - t⟩

/-- Modelled from the spec: `Vector2F` division by a scalar, `v / t`. -/
def divScalar (v : Vector2F K) (t : K) : Vector2F K := ⟨v.X / t, v.Y / t⟩

end Vector2F

open Vector2F

/-! ## VectorUtils (field part) -/

namespace VectorUtils

variable {K : Type} [LinearOrderedField K]

/-- Source `VectorUtils::dot`. -/
def dot (v1 v2 : Vector2F K) : K :=
  v1.X * v2.X + v1.Y * v2.Y

/-- Source `VectorUtils::determinant`. -/
def determinant (v1 v2 : Vector2F K) : K :=
  v1.X * v2.Y - v1.Y * v2.X

/-- Source `VectorUtils::equals`. -/
def equals (v1 v2 : Vector2F K) : Bool :=
  v1.X == v2.X && v1.Y == v2.Y

/-- Source `VectorUtils::rotateLeft`. -/
def rotateLeft (v : Vector2F K) : Vector2F K :=
  ⟨-v.Y, v.X⟩

/-- The `denominator` local of `VectorUtils::intersect`. -/
def intersectDenominator (v1 v2 w1 w2 : Vector2F K) : K :=
  (v1.X - v2.X) * (w1.Y - w2.Y) - (v1.Y - v2.Y) * (w1.X - w2.X)

/-- Source `VectorUtils::intersect`.  The widening to `double` and the
narrowing back to `float` are the identity in exact arithmetic. -/
def intersect (v1 v2 w1 w2 : Vector2F K) : Vector2F K :=
  let x1 := v1.X; let x2 := v2.X; let x3 := w1.X; let x4 := w2.X
  let y1 := v1.Y; let y2 := v2.Y; let y3 := w1.Y; let y4 := w2.Y
  let denominator := (x1 - x2) * (y3 - y4) - (y1 - y2) * (x3 - x4)
  if denominator = 0 then 0
  else
    let x := ((x1 * y2 - y1 * x2) * (x3 - x4) - (x1 - x2) * (x3 * y4 - y3 * x4)) / denominator
    let y := ((x1 * y2 - y1 * x2) * (y3 - y4) - (y1 - y2) * (x3 * y4 - y3 * x4)) / denominator
    ⟨x, y⟩

/-- Source `VectorUtils::rotationCenter`. -/
def rotationCenter (vOld vNew wOld wNew : Vector2F K) : Vector2F K :=
  if equals vOld vNew then vOld
  else if equals wOld wNew then wOld
  else
    let vMid := divScalar (vOld + vNew) 2
    let wMid := divScalar (wOld + wNew) 2
    let vNormal := rotateLeft (vNew - vOld)
    let wNormal := rotateLeft (wNew - wOld)
    intersect vMid (vMid + vNormal) wMid (wMid + wNormal)

/-- The state in which `rotationCenter` answers with the parallel-lines
sentinel of `intersect`: neither shortcut of lines 163-164 fires and the
`denominator` of the `intersect` call of line 171 is zero. -/
def hitsSentinel (vOld vNew wOld wNew : Vector2F K) : Prop :=
  equals vOld vNew = false ∧ equals wOld wNew = false ∧
    intersectDenominator
      (divScalar (vOld + vNew) 2)
      (divScalar (vOld + vNew) 2 + rotateLeft (vNew - vOld))
      (divScalar (wOld + wNew) 2)
      (divScalar (wOld + wNew) 2 + rotateLeft (wNew - wOld)) = 0

end VectorUtils

open VectorUtils

/-! ## VectorUtils (part that needs square roots) -/

namespace VectorUtils

/-- Source `VectorUtils::distance`; `std::sqrtf` is read as the real square
root. -/
noncomputable def distance (v1 v2 : Vector2F ℝ) : ℝ :=
  let d := v1 - v2
  Real.sqrt (d.X * d.X + d.Y * d.Y)

/-- Source `VectorUtils::normalize`. -/
noncomputable def normalize (v : Vector2F ℝ) : Vector2F ℝ :=
  let magnitude := distance 0 v
  divScalar v magnitude

end VectorUtils

/-! ## Host collaborators -/

/-- The constant `FLT_EPSILON` of `<cfloat>` for IEEE single precision,
`2^-23`. -/
noncomputable def FLT_EPSILON : ℝ := 1 / 8388608

/-- The C library function `atan2(y, x)`: the angle in `(-π, π]` of the point
`(x, y)`, with `atan2(0, 0) = 0`. -/
noncomputable def atan2 (y x : ℝ) : ℝ := Complex.arg ⟨x, y⟩

/-- Modelled from the spec: the host SDK type `Rotator` ("a single-axis
(yaw-equivalent) angle, stored in the host's angular units"); the three
constructor arguments are kept as given. -/
structure Rotator where
  Pitch : ℝ
  Yaw : ℝ
  Roll : ℝ

/-- Modelled from the spec: the tile image collaborator, reduced to what the
renderer asks of it: the answers of `IsLoadedForCanvas()`, `LoadForCanvas()`
and `GetSizeF()`. -/
structure ImageWrapper where
  IsLoadedForCanvas : Bool
  LoadForCanvas : Bool
  GetSizeF : Vector2F ℝ

/-- Modelled from the spec: the canvas collaborator as the renderer reads it:
the answer of `GetSize()` (canvas pixel dimensions). -/
structure CanvasWrapper where
  GetSize : Vector2F ℝ

/-- The calls `Render` makes on the canvas that change or draw something.
`DrawRotatedTile` always receives the renderer's own image as first argument,
which is left out. -/
inductive CanvasCall where
  | FillTriangle (p1 p2 p3 : Vector2F ℝ)
  | SetPosition (p : Vector2F ℝ)
  | DrawRotatedTile (rotator : Rotator) (width height srcX srcY srcW srcH pivotX pivotY : ℝ)

/-- Whether a canvas call is a `FillTriangle`. -/
def CanvasCall.isFillTriangle : CanvasCall → Bool
  | .FillTriangle _ _ _ => true
  | _ => false

/-- Whether a canvas call is a `DrawRotatedTile`. -/
def CanvasCall.isDrawRotatedTile : CanvasCall → Bool
  | .DrawRotatedTile _ _ _ _ _ _ _ _ _ => true
  | _ => false

/-! ## The renderer -/

/-- The data members of class `TransparentTriangle`: the image and the cached
`imageLoaded` flag. -/
structure TransparentTriangle where
  triangleImage : ImageWrapper
  imageLoaded : Bool

/-- The triple `(a, b, c)` of locals of `Render`. -/
structure Labels where
  a : Vector2F ℝ
  b : Vector2F ℝ
  c : Vector2F ℝ

namespace TransparentTriangle

/-- Source constructor `TransparentTriangle::TransparentTriangle`
(lines 27-34). -/
def new (triangleImage : ImageWrapper) : TransparentTriangle :=
  { triangleImage := triangleImage
    imageLoaded :=
      if triangleImage.IsLoadedForCanvas then true
      else triangleImage.LoadForCanvas }

/-- Lines 45-56 of `Render`: determine `c` to be opposite of the longest
side. -/
noncomputable def relabel (p1 p2 p3 : Vector2F ℝ) : Labels :=
  let d1 := distance p2 p3
  let d2 := distance p3 p1
  let d3 := distance p1 p2
  let longest := max d1 (max d2 d3)
  if d1 = longest then { c := p1, a := p2, b := p3 }
  else if d2 = longest then { c := p2, a := p3, b := p1 }
  else { c := p3, a := p1, b := p2 }

/-- Lines 58-60 of `Render`: make sure points are ordered
counter-clockwise. -/
noncomputable def windingSwap (l : Labels) : Labels :=
  if determinant (l.a - l.c) (l.b - l.c) > 0 then { a := l.b, b := l.a, c := l.c }
  else l

/-- The `(a, b, c)` that reaches the right-angle test of line 63. -/
noncomputable def renderLabels (p1 p2 p3 : Vector2F ℝ) : Labels :=
  windingSwap (relabel p1 p2 p3)

/-- The local `t` of line 70 of `Render`. -/
noncomputable def heightParam (a b c : Vector2F ℝ) : ℝ :=
  dot (b - c) (b - a) / dot (b - a) (b - a)

/-- The local `d` of line 71 of `Render`: base of the height opposite
to `c`. -/
noncomputable def heightBase (a b c : Vector2F ℝ) : Vector2F ℝ :=
  let t := heightParam a b c
  scale a t + scale b (1 - t)

/-- Lines 96-99 of `RenderRightTriangle`: the clamped `topLeft`. -/
noncomputable def clampTopLeft (canvasSize b size : Vector2F ℝ) : Vector2F ℝ :=
  let topLeft := b
  let overflow := topLeft + size - canvasSize
  let topLeft : Vector2F ℝ :=
    if overflow.X > 0 then ⟨topLeft.X - overflow.X, topLeft.Y⟩ else topLeft
  let topLeft : Vector2F ℝ :=
    if overflow.Y > 0 then ⟨topLeft.X, topLeft.Y - overflow.Y⟩ else topLeft
  topLeft

/-- Source `TransparentTriangle::RenderRightTriangle`, as the list of canvas
calls it issues.  `CONST_RadToUnrRot` is a constant of the host SDK and is
taken as a parameter. -/
noncomputable def RenderRightTriangle (self : TransparentTriangle) (CONST_RadToUnrRot : ℝ)
    (canvas : CanvasWrapper) (a b c : Vector2F ℝ) : List CanvasCall :=
  let tileStart : Vector2F ℝ := ⟨1, 1⟩
  let tileSize := subScalar self.triangleImage.GetSizeF 2
  let size : Vector2F ℝ := ⟨distance a c, distance b c⟩
  let angle := atan2 (a - c).Y (a - c).X
  let rotator := Rotator.mk 0 (angle * CONST_RadToUnrRot) 0
  if a.Y = c.Y then
    let center : Vector2F ℝ := ⟨0, 0⟩
    [ CanvasCall.SetPosition b,
      CanvasCall.DrawRotatedTile rotator size.X size.Y tileStart.X tileStart.Y
        tileSize.X tileSize.Y center.X center.Y ]
  else
    let topLeft := clampTopLeft canvas.GetSize b size
    let bottomRight := topLeft + size
    let center := (rotationCenter topLeft b bottomRight a - topLeft) / size
    [ CanvasCall.SetPosition topLeft,
      CanvasCall.DrawRotatedTile rotator size.X size.Y tileStart.X tileStart.Y
        tileSize.X tileSize.Y center.X center.Y ]

/-- The local `size` of line 84 of `RenderRightTriangle`. -/
noncomputable def destSize (a b c : Vector2F ℝ) : Vector2F ℝ :=
  ⟨distance a c, distance b c⟩

/-- The local `angle` of line 85 of `RenderRightTriangle`. -/
noncomputable def destAngle (a c : Vector2F ℝ) : ℝ :=
  atan2 (a - c).Y (a - c).X

/-- The local `topLeft` of the rotated branch of `RenderRightTriangle`, as
passed to `SetPosition` in line 101. -/
noncomputable def rotatedTopLeft (canvas : CanvasWrapper) (a b c : Vector2F ℝ) : Vector2F ℝ :=
  clampTopLeft canvas.GetSize b (destSize a b c)

/-- The value `rotationCenter(topLeft, b, bottomRight, a)` of line 102 of
`RenderRightTriangle`. -/
noncomputable def rotatedPivot (canvas : CanvasWrapper) (a b c : Vector2F ℝ) : Vector2F ℝ :=
  rotationCenter (rotatedTopLeft canvas a b c) b
    (rotatedTopLeft canvas a b c + destSize a b c) a

/-- Source `TransparentTriangle::Render`, as the list of canvas calls it
issues. -/
noncomputable def Render (self : TransparentTriangle) (CONST_RadToUnrRot : ℝ)
    (canvas : CanvasWrapper) (p1 p2 p3 : Vector2F ℝ) : List CanvasCall :=
  if !self.imageLoaded then
    [CanvasCall.FillTriangle p1 p2 p3]
  else
    let l := renderLabels p1 p2 p3
    let a := l.a
    let b := l.b
    let c := l.c
    if |dot (normalize (a - c)) (normalize (b - c))| < FLT_EPSILON then
      RenderRightTriangle self CONST_RadToUnrRot canvas a b c
    else
      let d := heightBase a b c
      RenderRightTriangle self CONST_RadToUnrRot canvas c a d
        ++ RenderRightTriangle self CONST_RadToUnrRot canvas b c d

end TransparentTriangle

/-! ## Notions used in the statements (not source code) -/

section StatementNotions

variable {K : Type} [LinearOrderedField K]

/-- The image of `x` under the rotation about the centre `p` whose angle has
cosine `cs.X` and sine `cs.Y`. -/
def rotateAbout (p cs x : Vector2F K) : Vector2F K :=
  ⟨p.X + (cs.X * (x.X - p.X) - cs.Y * (x.Y - p.Y)),
   p.Y + (cs.Y * (x.X - p.X) + cs.X * (x.Y - p.Y))⟩

/-- The pair `cs` is the cosine and sine of an angle that is not a multiple
of a full turn. -/
def IsProperRotation (cs : Vector2F K) : Prop :=
  cs.X * cs.X + cs.Y * cs.Y = 1 ∧ ¬ (cs.X = 1 ∧ cs.Y = 0)

/-- The triangle has an exact right angle at `v`, between its edges to `p`
and to `q`: the dot product of the two edge vectors leaving `v` is 0 and both
edges have non-zero length. -/
def RightAngleAt (v p q : Vector2F K) : Prop :=
  dot (p - v) (q - v) = 0 ∧ p ≠ v ∧ q ≠ v

/-- The unsigned area of the triangle `p q r`. -/
def triangleArea (p q r : Vector2F K) : K :=
  |determinant (q - p) (r - p)| / 2

end StatementNotions

/-- One edge of the triangle `p1 p2 p3` is strictly longer than both
others. -/
def UniqueLongestEdge (p1 p2 p3 : Vector2F ℝ) : Prop :=
  (distance p3 p1 < distance p2 p3 ∧ distance p1 p2 < distance p2 p3) ∨
    (distance p2 p3 < distance p3 p1 ∧ distance p1 p2 < distance p3 p1) ∨
    (distance p2 p3 < distance p1 p2 ∧ distance p3 p1 < distance p1 p2)

/-- The six orders in which the three points of a triangle can be passed. -/
def permutations3 (p1 p2 p3 : Vector2F ℝ) : List (Vector2F ℝ × Vector2F ℝ × Vector2F ℝ) :=
  [(p1, p2, p3), (p1, p3, p2), (p2, p1, p3), (p2, p3, p1), (p3, p1, p2), (p3, p2, p1)]

/-! ## Binary32 reading of the relabeling and the decomposition

The definitions above read `float` as exact real numbers.  The definitions
of this part round the result of every `float` operation of lines 45-75 of
`Render` (and of the `VectorUtils` functions it calls) to IEEE 754 binary32,
so that ties between rounded lengths are visible. -/

namespace Binary32

/-- IEEE 754 rounding of a real to the nearest integer, ties to even. -/
noncomputable def roundHalfEven (y : ℝ) : ℤ :=
  if y - ⌊y⌋ < 1 / 2 then ⌊y⌋
  else if 1 / 2 < y - ⌊y⌋ then ⌊y⌋ + 1
  else if Even ⌊y⌋ then ⌊y⌋ else ⌊y⌋ + 1

/-- IEEE 754 binary32 rounding (round to nearest, ties to even) of a real to
24 significant bits.  The exponent range is not modelled: the value is that
of `float` for results of magnitude between `2^-126` and `2^128`, and for 0;
overflow, subnormal numbers, signed zeros and NaN are outside the model. -/
noncomputable def binary32Round (x : ℝ) : ℝ :=
  if x = 0 then 0
  else
    let ulp : ℝ := (2 : ℝ) ^ (Int.log 2 |x| - 23)
    (roundHalfEven (x / ulp) : ℝ) * ulp

/-- The `float` sum `x + y`. -/
noncomputable def fadd (x y : ℝ) : ℝ := binary32Round (x + y)

/-- The `float` difference `x - y`. -/
noncomputable def fsub (x y : ℝ) : ℝ := binary32Round (x - y)

/-- The `float` product `x * y`. -/
noncomputable def fmul (x y : ℝ) : ℝ := binary32Round (x * y)

/-- The `float` quotient `x / y`, for `y != 0` (a zero divisor gives an
infinity or NaN in the code, outside the model). -/
noncomputable def fdiv (x y : ℝ) : ℝ := binary32Round (x / y)

/-- The function `std::sqrtf`, correctly rounded. -/
noncomputable def sqrtf (x : ℝ) : ℝ := binary32Round (Real.sqrt x)

/-- Modelled from the spec: `Vector2F` addition on `float` components. -/
noncomputable def add (v w : Vector2F ℝ) : Vector2F ℝ := ⟨fadd v.X w.X, fadd v.Y w.Y⟩

/-- Modelled from the spec: `Vector2F` subtraction on `float` components. -/
noncomputable def sub (v w : Vector2F ℝ) : Vector2F ℝ := ⟨fsub v.X w.X, fsub v.Y w.Y⟩

/-- Modelled from the spec: `Vector2F` scalar multiply on `float`
components. -/
noncomputable def scale (v : Vector2F ℝ) (t : ℝ) : Vector2F ℝ := ⟨fmul v.X t, fmul v.Y t⟩

/-- Modelled from the spec: `Vector2F` division by a scalar on `float`
components. -/
noncomputable def divScalar (v : Vector2F ℝ) (t : ℝ) : Vector2F ℝ := ⟨fdiv v.X t, fdiv v.Y t⟩

/-- Source `VectorUtils::distance` in binary32. -/
noncomputable def distance (v1 v2 : Vector2F ℝ) : ℝ :=
  let d := Binary32.sub v1 v2
  sqrtf (fadd (fmul d.X d.X) (fmul d.Y d.Y))

/-- Source `VectorUtils::dot` in binary32. -/
noncomputable def dot (v1 v2 : Vector2F ℝ) : ℝ :=
  fadd (fmul v1.X v2.X) (fmul v1.Y v2.Y)

/-- Source `VectorUtils::determinant` in binary32. -/
noncomputable def determinant (v1 v2 : Vector2F ℝ) : ℝ :=
  fsub (fmul v1.X v2.Y) (fmul v1.Y v2.X)

/-- Source `VectorUtils::normalize` in binary32. -/
noncomputable def normalize (v : Vector2F ℝ) : Vector2F ℝ :=
  let magnitude := Binary32.distance 0 v
  Binary32.divScalar v magnitude

/-- Lines 45-56 of `Render` in binary32: the lengths compared by
`d1 == longest` and `d2 == longest` are the rounded ones. -/
noncomputable def relabel (p1 p2 p3 : Vector2F ℝ) : Labels :=
  let d1 := Binary32.distance p2 p3
  let d2 := Binary32.distance p3 p1
  let d3 := Binary32.distance p1 p2
  let longest := max d1 (max d2 d3)
  if d1 = longest then { c := p1, a := p2, b := p3 }
  else if d2 = longest then { c := p2, a := p3, b := p1 }
  else { c := p3, a := p1, b := p2 }

/-- Lines 58-60 of `Render` in binary32. -/
noncomputable def windingSwap (l : Labels) : Labels :=
  if Binary32.determinant (Binary32.sub l.a l.c) (Binary32.sub l.b l.c) > 0 then
    { a := l.b, b := l.a, c := l.c }
  else l

/-- The `(a, b, c)` that reaches the right-angle test of line 63, in
binary32. -/
noncomputable def renderLabels (p1 p2 p3 : Vector2F ℝ) : Labels :=
  Binary32.windingSwap (Binary32.relabel p1 p2 p3)

/-- The local `d` of lines 70-71 of `Render` in binary32. -/
noncomputable def heightBase (a b c : Vector2F ℝ) : Vector2F ℝ :=
  let t := fdiv (Binary32.dot (Binary32.sub b c) (Binary32.sub b a))
    (Binary32.dot (Binary32.sub b a) (Binary32.sub b a))
  Binary32.add (Binary32.scale a t) (Binary32.scale b (fsub 1 t))

/-- Lines 45-75 of `Render` (the path of a loaded image) in binary32, as the
list of the argument triples `(a, b, c)` of the `RenderRightTriangle` calls
it makes, in order.  Every `RenderRightTriangle` call issues exactly one
`DrawRotatedTile` call (lines 104-111), so the length of the list is the
number of `DrawRotatedTile` calls. -/
noncomputable def Render (p1 p2 p3 : Vector2F ℝ) : List Labels :=
  let l := Binary32.renderLabels p1 p2 p3
  let a := l.a
  let b := l.b
  let c := l.c
  if |Binary32.dot (Binary32.normalize (Binary32.sub a c))
      (Binary32.normalize (Binary32.sub b c))| < FLT_EPSILON then
    [{ a := a, b := b, c := c }]
  else
    let d := Binary32.heightBase a b c
    [{ a := c, b := a, c := d }, { a := b, b := c, c := d }]

end Binary32

/-! ## Basic facts about the embedding -/

namespace Vector2F

variable {K : Type} [LinearOrderedField K]

@[simp] theorem zero_X : (0 : Vector2F K).X = 0 := rfl
@[simp] theorem zero_Y : (0 : Vector2F K).Y = 0 := rfl
@[simp] theorem add_X (v w : Vector2F K) : (v + w).X = v.X + w.X := rfl
@[simp] theorem add_Y (v w : Vector2F K) : (v + w).Y = v.Y + w.Y := rfl
@[simp] theorem sub_X (v w : Vector2F K) : (v - w).X = v.X - w.X := rfl
@[simp] theorem sub_Y (v w : Vector2F K) : (v - w).Y = v.Y - w.Y := rfl
@[simp] theorem div_X (v w : Vector2F K) : (v / w).X = v.X / w.X := rfl
@[simp] theorem div_Y (v w : Vector2F K) : (v / w).Y = v.Y / w.Y := rfl
@[simp] theorem scale_X (v : Vector2F K) (t : K) : (scale v t).X = v.X * t := rfl
@[simp] theorem scale_Y (v : Vector2F K) (t : K) : (scale v t).Y = v.Y * t := rfl
@[simp] theorem subScalar_X (v : Vector2F K) (t : K) : (subScalar v t).X = v.X - t := rfl
@[simp] theorem subScalar_Y (v : Vector2F K) (t : K) : (subScalar v t).Y = v.Y - t := rfl
@[simp] theorem divScalar_X (v : Vector2F K) (t : K) : (divScalar v t).X = v.X / t := rfl
@[simp] theorem divScalar_Y (v : Vector2F K) (t : K) : (divScalar v t).Y = v.Y / t := rfl

omit [LinearOrderedField K] in
theorem eq_iff (v w : Vector2F K) : v = w ↔ v.X = w.X ∧ v.Y = w.Y := by
  cases v; cases w; simp

end Vector2F

namespace VectorUtils

variable {K : Type} [LinearOrderedField K]

theorem equals_iff (v w : Vector2F K) : equals v w = true ↔ v = w := by
  simp [equals, Vector2F.eq_iff]

theorem equals_eq_false_iff (v w : Vector2F K) : equals v w = false ↔ v ≠ w := by
  rw [ne_eq, ← equals_iff]; simp

/-- Swapping the arguments of `determinant` negates it. -/
theorem determinant_swap (v w : Vector2F K) : determinant w v = -determinant v w := by
  simp only [determinant]; ring

theorem distance_nonneg (v w : Vector2F ℝ) : 0 ≤ distance v w := by
  simp only [distance]; exact Real.sqrt_nonneg _

theorem distance_comm (v w : Vector2F ℝ) : distance v w = distance w v := by
  simp only [distance, Vector2F.sub_X, Vector2F.sub_Y]
  congr 1; ring

theorem distance_mul_self (v w : Vector2F ℝ) :
    distance v w * distance v w = (v.X - w.X) * (v.X - w.X) + (v.Y - w.Y) * (v.Y - w.Y) := by
  simp only [distance, Vector2F.sub_X, Vector2F.sub_Y]
  exact Real.mul_self_sqrt (add_nonneg (mul_self_nonneg _) (mul_self_nonneg _))

theorem distance_le_iff (v w v' w' : Vector2F ℝ) :
    distance v w ≤ distance v' w' ↔
      (v.X - w.X) * (v.X - w.X) + (v.Y - w.Y) * (v.Y - w.Y)
        ≤ (v'.X - w'.X) * (v'.X - w'.X) + (v'.Y - w'.Y) * (v'.Y - w'.Y) := by
  simp only [distance, Vector2F.sub_X, Vector2F.sub_Y]
  exact Real.sqrt_le_sqrt_iff (add_nonneg (mul_self_nonneg _) (mul_self_nonneg _))

theorem distance_lt_iff (v w v' w' : Vector2F ℝ) :
    distance v w < distance v' w' ↔
      (v.X - w.X) * (v.X - w.X) + (v.Y - w.Y) * (v.Y - w.Y)
        < (v'.X - w'.X) * (v'.X - w'.X) + (v'.Y - w'.Y) * (v'.Y - w'.Y) := by
  simp only [distance, Vector2F.sub_X, Vector2F.sub_Y]
  exact Real.sqrt_lt_sqrt_iff (add_nonneg (mul_self_nonneg _) (mul_self_nonneg _))

theorem distance_eq_zero_iff (v w : Vector2F ℝ) : distance v w = 0 ↔ v = w := by
  simp only [distance, Vector2F.sub_X, Vector2F.sub_Y]
  rw [Real.sqrt_eq_zero (add_nonneg (mul_self_nonneg _) (mul_self_nonneg _)), Vector2F.eq_iff]
  constructor
  · intro h
    constructor <;> nlinarith [mul_self_nonneg (v.X - w.X), mul_self_nonneg (v.Y - w.Y)]
  · rintro ⟨h1, h2⟩
    rw [h1, h2]; ring

theorem distance_pos_iff (v w : Vector2F ℝ) : 0 < distance v w ↔ v ≠ w := by
  rw [← not_iff_not, not_lt, ne_eq, not_not, ← distance_eq_zero_iff]
  exact ⟨fun h => le_antisymm h (distance_nonneg v w), fun h => h.le⟩

end VectorUtils

namespace TransparentTriangle

/-- Every run of `RenderRightTriangle` sets the position and then draws one
tile. -/
theorem RenderRightTriangle_shape (self : TransparentTriangle) (k : ℝ) (canvas : CanvasWrapper)
    (a b c : Vector2F ℝ) :
    ∃ pos rot w h sx sy sw sh px py,
      RenderRightTriangle self k canvas a b c =
        [CanvasCall.SetPosition pos, CanvasCall.DrawRotatedTile rot w h sx sy sw sh px py] := by
  unfold RenderRightTriangle
  by_cases h : a.Y = c.Y
  · simp only [h, if_true]; exact ⟨_, _, _, _, _, _, _, _, _, _, rfl⟩
  · simp only [h, if_false]; exact ⟨_, _, _, _, _, _, _, _, _, _, rfl⟩

theorem RenderRightTriangle_countDraw (self : TransparentTriangle) (k : ℝ) (canvas : CanvasWrapper)
    (a b c : Vector2F ℝ) :
    (RenderRightTriangle self k canvas a b c).countP CanvasCall.isDrawRotatedTile = 1 := by
  obtain ⟨pos, rot, w, h, sx, sy, sw, sh, px, py, e⟩ :=
    RenderRightTriangle_shape self k canvas a b c
  rw [e]; rfl

theorem RenderRightTriangle_countFill (self : TransparentTriangle) (k : ℝ) (canvas : CanvasWrapper)
    (a b c : Vector2F ℝ) :
    (RenderRightTriangle self k canvas a b c).countP CanvasCall.isFillTriangle = 0 := by
  obtain ⟨pos, rot, w, h, sx, sy, sw, sh, px, py, e⟩ :=
    RenderRightTriangle_shape self k canvas a b c
  rw [e]; rfl

/-- With a loaded image `Render` never fills a triangle and draws one or two
tiles. -/
theorem Render_loaded_counts (self : TransparentTriangle) (k : ℝ) (canvas : CanvasWrapper)
    (p1 p2 p3 : Vector2F ℝ) (hl : self.imageLoaded = true) :
    (Render self k canvas p1 p2 p3).countP CanvasCall.isFillTriangle = 0 ∧
      1 ≤ (Render self k canvas p1 p2 p3).countP CanvasCall.isDrawRotatedTile := by
  unfold Render
  simp only [hl, Bool.not_true, Bool.false_eq_true, if_false]
  split_ifs
  · simp [RenderRightTriangle_countDraw, RenderRightTriangle_countFill]
  · simp [List.countP_append, RenderRightTriangle_countDraw, RenderRightTriangle_countFill]

end TransparentTriangle

open TransparentTriangle

/-! ## C5: fallback path -/

/-- C5 (as stated, refuted): an image that reports `IsLoadedForCanvas() = true`
and whose `LoadForCanvas()` would return false still makes the renderer draw
tiles: `Render` issues no `FillTriangle` and at least one `DrawRotatedTile`
for the triangle `(200,200), (500,200), (500,400)` on a 1920x1080 canvas. -/
theorem c5_loaded_image_counterexample :
    (ImageWrapper.mk true false ⟨64, 64⟩).LoadForCanvas = false ∧
      (Render (TransparentTriangle.new (ImageWrapper.mk true false ⟨64, 64⟩)) 1
          (CanvasWrapper.mk ⟨1920, 1080⟩) ⟨200, 200⟩ ⟨500, 200⟩ ⟨500, 400⟩).countP
        CanvasCall.isFillTriangle = 0 ∧
      (Render (TransparentTriangle.new (ImageWrapper.mk true false ⟨64, 64⟩)) 1
          (CanvasWrapper.mk ⟨1920, 1080⟩) ⟨200, 200⟩ ⟨500, 200⟩ ⟨500, 400⟩).countP
        CanvasCall.isDrawRotatedTile ≠ 0 := by
  have h := Render_loaded_counts (TransparentTriangle.new (ImageWrapper.mk true false ⟨64, 64⟩)) 1
    (CanvasWrapper.mk ⟨1920, 1080⟩) ⟨200, 200⟩ ⟨500, 200⟩ ⟨500, 400⟩ rfl
  exact ⟨rfl, h.1, by omega⟩

/-- C5 (amended): for every renderer constructed with an image whose
`IsLoadedForCanvas()` and `LoadForCanvas()` both return false, every `Render`
call issues exactly the one call `FillTriangle(p1,p2,p3)`: one `FillTriangle`
and zero `DrawRotatedTile` calls, for every triple of points. -/
theorem c5_fallback_path (image : ImageWrapper) (k : ℝ) (canvas : CanvasWrapper)
    (p1 p2 p3 : Vector2F ℝ)
    (hNotLoaded : image.IsLoadedForCanvas = false) (hLoadFails : image.LoadForCanvas = false) :
    Render (TransparentTriangle.new image) k canvas p1 p2 p3 = [CanvasCall.FillTriangle p1 p2 p3] ∧
      (Render (TransparentTriangle.new image) k canvas p1 p2 p3).countP
        CanvasCall.isFillTriangle = 1 ∧
      (Render (TransparentTriangle.new image) k canvas p1 p2 p3).countP
        CanvasCall.isDrawRotatedTile = 0 := by
  have h : Render (TransparentTriangle.new image) k canvas p1 p2 p3
      = [CanvasCall.FillTriangle p1 p2 p3] := by
    simp [Render, TransparentTriangle.new, hNotLoaded, hLoadFails]
  rw [h]
  exact ⟨rfl, rfl, rfl⟩

/-- Witness of C5 (amended) at an unloaded 64x64 image whose load fails. -/
theorem c5_fallback_path_witness :
    Render (TransparentTriangle.new (ImageWrapper.mk false false ⟨64, 64⟩)) 1
        (CanvasWrapper.mk ⟨1920, 1080⟩) ⟨200, 200⟩ ⟨500, 200⟩ ⟨500, 400⟩
      = [CanvasCall.FillTriangle ⟨200, 200⟩ ⟨500, 200⟩ ⟨500, 400⟩] ∧
      (Render (TransparentTriangle.new (ImageWrapper.mk false false ⟨64, 64⟩)) 1
          (CanvasWrapper.mk ⟨1920, 1080⟩) ⟨200, 200⟩ ⟨500, 200⟩ ⟨500, 400⟩).countP
        CanvasCall.isFillTriangle = 1 ∧
      (Render (TransparentTriangle.new (ImageWrapper.mk false false ⟨64, 64⟩)) 1
          (CanvasWrapper.mk ⟨1920, 1080⟩) ⟨200, 200⟩ ⟨500, 200⟩ ⟨500, 400⟩).countP
        CanvasCall.isDrawRotatedTile = 0 :=
  c5_fallback_path (ImageWrapper.mk false false ⟨64, 64⟩) 1 (CanvasWrapper.mk ⟨1920, 1080⟩)
    ⟨200, 200⟩ ⟨500, 200⟩ ⟨500, 400⟩ rfl rfl

/-! ## C3: winding invariant -/

/-- C3: for every input `p1, p2, p3`, the `(a, b, c)` that reaches the
right-angle test and the decomposition of `Render` (after the relabeling and
the conditional swap) satisfies `determinant(a-c, b-c) <= 0`. -/
theorem c3_winding_invariant (p1 p2 p3 : Vector2F ℝ) :
    determinant ((renderLabels p1 p2 p3).a - (renderLabels p1 p2 p3).c)
      ((renderLabels p1 p2 p3).b - (renderLabels p1 p2 p3).c) ≤ 0 := by
  unfold renderLabels windingSwap
  split_ifs with h
  · show determinant ((relabel p1 p2 p3).b - (relabel p1 p2 p3).c)
      ((relabel p1 p2 p3).a - (relabel p1 p2 p3).c) ≤ 0
    rw [determinant_swap]
    linarith
  · exact not_lt.mp h

/-! ## C2: relabeling -/

namespace TransparentTriangle

theorem eq_max3_left (x y z : ℝ) : x = max x (max y z) ↔ y ≤ x ∧ z ≤ x :=
  eq_comm.trans (max_eq_left_iff.trans max_le_iff)

theorem eq_max3_mid (x y z : ℝ) : y = max x (max y z) ↔ x ≤ y ∧ z ≤ y := by
  constructor
  · intro h
    have h1 : x ≤ max x (max y z) := le_max_left _ _
    have h2 : z ≤ max x (max y z) := le_trans (le_max_right _ _) (le_max_right _ _)
    rw [← h] at h1 h2
    exact ⟨h1, h2⟩
  · rintro ⟨h1, h2⟩
    rw [max_eq_left h2, max_eq_right h1]

/-- The three branches of lines 51-56 of `Render`, with the tests on `longest`
spelled out as comparisons of the edge lengths. -/
theorem relabel_eq (p1 p2 p3 : Vector2F ℝ) :
    relabel p1 p2 p3 =
      if distance p3 p1 ≤ distance p2 p3 ∧ distance p1 p2 ≤ distance p2 p3 then
        { a := p2, b := p3, c := p1 }
      else if distance p2 p3 ≤ distance p3 p1 ∧ distance p1 p2 ≤ distance p3 p1 then
        { a := p3, b := p1, c := p2 }
      else { a := p1, b := p2, c := p3 } := by
  unfold relabel
  simp only [eq_max3_left, eq_max3_mid]

/-- In the last branch of the relabeling the edge `p1 p2` is strictly the
longest. -/
theorem relabel_last_branch (x y z : ℝ) (h1 : ¬ (y ≤ x ∧ z ≤ x)) (h2 : ¬ (x ≤ y ∧ z ≤ y)) :
    x < z ∧ y < z := by
  rcases le_total x y with hxy | hxy
  · have hz : y < z := by
      by_contra hc
      exact h2 ⟨hxy, not_lt.mp hc⟩
    exact ⟨lt_of_le_of_lt hxy hz, hz⟩
  · have hz : x < z := by
      by_contra hc
      exact h1 ⟨hxy, not_lt.mp hc⟩
    exact ⟨hz, lt_of_le_of_lt hxy hz⟩

/-- After the relabeling, `c` is opposite a longest edge. -/
theorem relabel_longest (p1 p2 p3 : Vector2F ℝ) :
    distance (relabel p1 p2 p3).a (relabel p1 p2 p3).c
        ≤ distance (relabel p1 p2 p3).a (relabel p1 p2 p3).b ∧
      distance (relabel p1 p2 p3).b (relabel p1 p2 p3).c
        ≤ distance (relabel p1 p2 p3).a (relabel p1 p2 p3).b := by
  rw [relabel_eq]
  split_ifs with h1 h2
  · exact ⟨by rw [distance_comm p2 p1]; exact h1.2, h1.1⟩
  · exact ⟨by rw [distance_comm p3 p2]; exact h2.1, h2.2⟩
  · obtain ⟨h3, h4⟩ := relabel_last_branch _ _ _ h1 h2
    exact ⟨by rw [distance_comm p1 p3]; exact h4.le, h3.le⟩

theorem relabel_perm (p1 p2 p3 : Vector2F ℝ) :
    List.Perm [(relabel p1 p2 p3).a, (relabel p1 p2 p3).b, (relabel p1 p2 p3).c] [p1, p2, p3] := by
  rw [relabel_eq]
  split_ifs with h1 h2
  · exact @List.perm_append_comm _ [p2, p3] [p1]
  · exact @List.perm_append_comm _ [p3] [p1, p2]
  · exact List.Perm.refl _

/-- The winding swap keeps `c` and either keeps or exchanges `a` and `b`. -/
theorem windingSwap_cases (l : Labels) :
    (windingSwap l).c = l.c ∧
      (((windingSwap l).a = l.a ∧ (windingSwap l).b = l.b) ∨
        ((windingSwap l).a = l.b ∧ (windingSwap l).b = l.a)) := by
  unfold windingSwap
  split_ifs
  · exact ⟨rfl, Or.inr ⟨rfl, rfl⟩⟩
  · exact ⟨rfl, Or.inl ⟨rfl, rfl⟩⟩

/-- After the relabeling and the winding swap, `c` is still opposite a longest
edge. -/
theorem renderLabels_longest (p1 p2 p3 : Vector2F ℝ) :
    distance (renderLabels p1 p2 p3).a (renderLabels p1 p2 p3).c
        ≤ distance (renderLabels p1 p2 p3).a (renderLabels p1 p2 p3).b ∧
      distance (renderLabels p1 p2 p3).b (renderLabels p1 p2 p3).c
        ≤ distance (renderLabels p1 p2 p3).a (renderLabels p1 p2 p3).b := by
  obtain ⟨h1, h2⟩ := relabel_longest p1 p2 p3
  obtain ⟨hc, hab | hab⟩ := windingSwap_cases (relabel p1 p2 p3)
  · unfold renderLabels
    rw [hc, hab.1, hab.2]
    exact ⟨h1, h2⟩
  · unfold renderLabels
    rw [hc, hab.1, hab.2, distance_comm (relabel p1 p2 p3).b (relabel p1 p2 p3).a]
    exact ⟨h2, h1⟩

theorem renderLabels_perm (p1 p2 p3 : Vector2F ℝ) :
    List.Perm [(renderLabels p1 p2 p3).a, (renderLabels p1 p2 p3).b, (renderLabels p1 p2 p3).c]
      [p1, p2, p3] := by
  obtain ⟨hc, hab | hab⟩ := windingSwap_cases (relabel p1 p2 p3)
  · unfold renderLabels
    rw [hc, hab.1, hab.2]
    exact relabel_perm p1 p2 p3
  · unfold renderLabels
    rw [hc, hab.1, hab.2]
    exact (List.Perm.swap _ _ _).trans (relabel_perm p1 p2 p3)

end TransparentTriangle

/-- C2: for every input `p1, p2, p3` the relabeling of `Render` follows the
fixed convention (`d1 = |p2p3|` longest: `c=p1, a=p2, b=p3`; else
`d2 = |p3p1|` longest: `c=p2, a=p3, b=p1`; else `c=p3, a=p1, b=p2`; `d1` wins
ties), `(a, b, c)` is a permutation of `(p1, p2, p3)`, and `c` is opposite a
longest edge: `distance(a,b) >= distance(a,c)` and
`distance(a,b) >= distance(b,c)`.  The permutation and the two inequalities
still hold after the winding swap, which keeps `c`. -/
theorem c2_relabel_convention (p1 p2 p3 : Vector2F ℝ) :
    ((distance p3 p1 ≤ distance p2 p3 ∧ distance p1 p2 ≤ distance p2 p3 →
        relabel p1 p2 p3 = { a := p2, b := p3, c := p1 }) ∧
      (¬ (distance p3 p1 ≤ distance p2 p3 ∧ distance p1 p2 ≤ distance p2 p3) →
        (distance p2 p3 ≤ distance p3 p1 ∧ distance p1 p2 ≤ distance p3 p1) →
        relabel p1 p2 p3 = { a := p3, b := p1, c := p2 }) ∧
      (¬ (distance p3 p1 ≤ distance p2 p3 ∧ distance p1 p2 ≤ distance p2 p3) →
        ¬ (distance p2 p3 ≤ distance p3 p1 ∧ distance p1 p2 ≤ distance p3 p1) →
        relabel p1 p2 p3 = { a := p1, b := p2, c := p3 })) ∧
    (List.Perm [(relabel p1 p2 p3).a, (relabel p1 p2 p3).b, (relabel p1 p2 p3).c] [p1, p2, p3] ∧
      distance (relabel p1 p2 p3).a (relabel p1 p2 p3).b
        ≥ distance (relabel p1 p2 p3).a (relabel p1 p2 p3).c ∧
      distance (relabel p1 p2 p3).a (relabel p1 p2 p3).b
        ≥ distance (relabel p1 p2 p3).b (relabel p1 p2 p3).c) ∧
    (List.Perm [(renderLabels p1 p2 p3).a, (renderLabels p1 p2 p3).b, (renderLabels p1 p2 p3).c]
        [p1, p2, p3] ∧
      (renderLabels p1 p2 p3).c = (relabel p1 p2 p3).c ∧
      distance (renderLabels p1 p2 p3).a (renderLabels p1 p2 p3).b
        ≥ distance (renderLabels p1 p2 p3).a (renderLabels p1 p2 p3).c ∧
      distance (renderLabels p1 p2 p3).a (renderLabels p1 p2 p3).b
        ≥ distance (renderLabels p1 p2 p3).b (renderLabels p1 p2 p3).c) := by
  refine ⟨⟨?_, ?_, ?_⟩, ⟨relabel_perm p1 p2 p3, (relabel_longest p1 p2 p3).1,
    (relabel_longest p1 p2 p3).2⟩, ⟨renderLabels_perm p1 p2 p3,
    (windingSwap_cases (relabel p1 p2 p3)).1, (renderLabels_longest p1 p2 p3).1,
    (renderLabels_longest p1 p2 p3).2⟩⟩
  · intro h
    rw [relabel_eq, if_pos h]
  · intro h1 h2
    rw [relabel_eq, if_neg h1, if_pos h2]
  · intro h1 h2
    rw [relabel_eq, if_neg h1, if_neg h2]

/-! ## Line intersection and rotation centre -/

namespace VectorUtils

variable {K : Type} [LinearOrderedField K]

theorem intersect_of_denominator_eq_zero (v1 v2 w1 w2 : Vector2F K)
    (h : intersectDenominator v1 v2 w1 w2 = 0) : intersect v1 v2 w1 w2 = 0 := by
  unfold intersectDenominator at h
  simp only [intersect, h, if_true]

/-- When the denominator is not zero, `intersect` returns the only point on
both lines. -/
theorem intersect_eq_of_on_lines (v1 v2 w1 w2 q : Vector2F K)
    (hD : intersectDenominator v1 v2 w1 w2 ≠ 0)
    (h1 : determinant (q - v1) (v2 - v1) = 0) (h2 : determinant (q - w1) (w2 - w1) = 0) :
    intersect v1 v2 w1 w2 = q := by
  unfold intersectDenominator at hD
  simp only [determinant, Vector2F.sub_X, Vector2F.sub_Y] at h1 h2
  simp only [intersect, hD, if_false]
  rw [Vector2F.eq_iff]
  constructor
  · show _ / _ = q.X
    rw [div_eq_iff hD]
    linear_combination (-(w1.X - w2.X)) * h1 + (v1.X - v2.X) * h2
  · show _ / _ = q.Y
    rw [div_eq_iff hD]
    linear_combination (-(w1.Y - w2.Y)) * h1 + (v1.Y - v2.Y) * h2

end VectorUtils

section Rotation

variable {K : Type} [LinearOrderedField K]

/-- A proper rotation moves every point except its centre. -/
theorem rotateAbout_eq_self_iff (p cs x : Vector2F K) (hR : IsProperRotation cs) :
    rotateAbout p cs x = x ↔ x = p := by
  obtain ⟨hcs, hne⟩ := hR
  constructor
  · intro h
    rw [Vector2F.eq_iff] at h
    simp only [rotateAbout] at h
    obtain ⟨hx, hy⟩ := h
    have hc : cs.X ≠ 1 := by
      intro hc
      apply hne
      refine ⟨hc, ?_⟩
      have : cs.Y * cs.Y = 0 := by rw [hc] at hcs; linear_combination hcs
      exact mul_self_eq_zero.mp this
    have hk : (2 - 2 * cs.X) ≠ 0 := by
      intro h0
      apply hc
      linear_combination (-1 / 2 : K) * h0
    have ex : (2 - 2 * cs.X) * (x.X - p.X) = 0 := by
      linear_combination (cs.X - 1) * hx + cs.Y * hy - (x.X - p.X) * hcs
    have ey : (2 - 2 * cs.X) * (x.Y - p.Y) = 0 := by
      linear_combination (cs.X - 1) * hy - cs.Y * hx - (x.Y - p.Y) * hcs
    rw [Vector2F.eq_iff]
    constructor
    · have := (mul_eq_zero.mp ex).resolve_left hk
      linear_combination this
    · have := (mul_eq_zero.mp ey).resolve_left hk
      linear_combination this
  · intro h
    rw [h, Vector2F.eq_iff]
    simp [rotateAbout]

/-- The centre of a rotation lies on the perpendicular bisector that
`rotationCenter` builds for a point and its image. -/
theorem center_on_bisector (p cs v : Vector2F K) (hcs : cs.X * cs.X + cs.Y * cs.Y = 1) :
    determinant (p - divScalar (v + rotateAbout p cs v) 2)
      (divScalar (v + rotateAbout p cs v) 2 + rotateLeft (rotateAbout p cs v - v)
        - divScalar (v + rotateAbout p cs v) 2) = 0 := by
  simp only [determinant, rotateAbout, rotateLeft, Vector2F.sub_X, Vector2F.sub_Y,
    Vector2F.add_X, Vector2F.add_Y, Vector2F.divScalar_X, Vector2F.divScalar_Y]
  linear_combination
    (-((v.X - p.X) * (v.X - p.X) + (v.Y - p.Y) * (v.Y - p.Y)) / 2) * hcs

/-- The `denominator` that `rotationCenter` hands to `intersect` is the
determinant of the two displacement vectors. -/
theorem bisector_denominator (vOld vNew wOld wNew : Vector2F K) :
    intersectDenominator
      (divScalar (vOld + vNew) 2)
      (divScalar (vOld + vNew) 2 + rotateLeft (vNew - vOld))
      (divScalar (wOld + wNew) 2)
      (divScalar (wOld + wNew) 2 + rotateLeft (wNew - wOld))
      = determinant (vNew - vOld) (wNew - wOld) := by
  simp only [intersectDenominator, determinant, rotateLeft, Vector2F.sub_X, Vector2F.sub_Y,
    Vector2F.add_X, Vector2F.add_Y, Vector2F.divScalar_X, Vector2F.divScalar_Y]
  ring

/-- The displacement determinant of two points under one rotation about `p`
is `2 - 2 cos` times the determinant of the two points seen from `p`. -/
theorem displacement_determinant (p cs v w : Vector2F K)
    (hcs : cs.X * cs.X + cs.Y * cs.Y = 1) :
    determinant (rotateAbout p cs v - v) (rotateAbout p cs w - w)
      = (2 - 2 * cs.X) * determinant (v - p) (w - p) := by
  simp only [determinant, rotateAbout, Vector2F.sub_X, Vector2F.sub_Y]
  linear_combination
    ((v.X - p.X) * (w.Y - p.Y) - (v.Y - p.Y) * (w.X - p.X)) * hcs

/-- Unless it answers with the parallel-lines sentinel, `rotationCenter`
applied to two points and their images under a proper rotation about `p`
returns `p`. -/
theorem rotationCenter_of_not_sentinel (p cs v w : Vector2F K) (hR : IsProperRotation cs)
    (hS : ¬ hitsSentinel v (rotateAbout p cs v) w (rotateAbout p cs w)) :
    rotationCenter v (rotateAbout p cs v) w (rotateAbout p cs w) = p := by
  unfold rotationCenter
  by_cases hv : equals v (rotateAbout p cs v) = true
  · rw [if_pos hv]
    exact (rotateAbout_eq_self_iff p cs v hR).mp ((equals_iff _ _).mp hv).symm
  · rw [if_neg hv]
    by_cases hw : equals w (rotateAbout p cs w) = true
    · rw [if_pos hw]
      exact (rotateAbout_eq_self_iff p cs w hR).mp ((equals_iff _ _).mp hw).symm
    · rw [if_neg hw]
      have hD : intersectDenominator
          (divScalar (v + rotateAbout p cs v) 2)
          (divScalar (v + rotateAbout p cs v) 2 + rotateLeft (rotateAbout p cs v - v))
          (divScalar (w + rotateAbout p cs w) 2)
          (divScalar (w + rotateAbout p cs w) 2 + rotateLeft (rotateAbout p cs w - w)) ≠ 0 := by
        intro h0
        exact hS ⟨by simpa using hv, by simpa using hw, h0⟩
      exact intersect_eq_of_on_lines _ _ _ _ p hD (center_on_bisector p cs v hR.1)
        (center_on_bisector p cs w hR.1)

/-- When the centre lies on the line through two points and is neither of
them, `rotationCenter` answers with the sentinel `(0,0)`. -/
theorem rotationCenter_collinear (p cs v w : Vector2F K) (hR : IsProperRotation cs)
    (hv : v ≠ p) (hw : w ≠ p) (hcol : determinant (v - p) (w - p) = 0) :
    rotationCenter v (rotateAbout p cs v) w (rotateAbout p cs w) = 0 := by
  unfold rotationCenter
  have hv' : ¬ equals v (rotateAbout p cs v) = true := by
    rw [equals_iff]
    intro h
    exact hv ((rotateAbout_eq_self_iff p cs v hR).mp h.symm)
  have hw' : ¬ equals w (rotateAbout p cs w) = true := by
    rw [equals_iff]
    intro h
    exact hw ((rotateAbout_eq_self_iff p cs w hR).mp h.symm)
  rw [if_neg hv', if_neg hw']
  apply intersect_of_denominator_eq_zero
  rw [bisector_denominator, displacement_determinant p cs v w hR.1, hcol, mul_zero]

end Rotation

/-! ## C9: rotationCenter under its precondition -/

/-- C9: for every centre `p`, every rotation `R` about `p` by an angle that is
not a multiple of a full turn, and every points `v`, `w` such that `v` is
stationary (`v = p`), or `w` is stationary (`w = p`), or the displacement
vectors `R(v)-v` and `R(w)-w` are not parallel,
`rotationCenter(v, R(v), w, R(w)) = p`. -/
theorem c9_rotationCenter_fixed_point {K : Type} [LinearOrderedField K] (p cs v w : Vector2F K)
    (hR : IsProperRotation cs)
    (hPre : v = p ∨ w = p ∨
      determinant (rotateAbout p cs v - v) (rotateAbout p cs w - w) ≠ 0) :
    rotationCenter v (rotateAbout p cs v) w (rotateAbout p cs w) = p := by
  apply rotationCenter_of_not_sentinel p cs v w hR
  rintro ⟨hv, hw, hD⟩
  rw [equals_eq_false_iff] at hv hw
  rcases hPre with h | h | h
  · exact hv ((rotateAbout_eq_self_iff p cs v hR).mpr h).symm
  · exact hw ((rotateAbout_eq_self_iff p cs w hR).mpr h).symm
  · rw [bisector_denominator] at hD
    exact h hD

/-- Witness of C9 over the rationals: the rotation with cosine 3/5 and sine
4/5 about `(1/2, 1/2)`, and the two corners `(0,0)` and `(1,0)` of the unit
square, whose displacements are not parallel. -/
theorem c9_rotationCenter_fixed_point_witness :
    IsProperRotation (Vector2F.mk (3 / 5 : ℚ) (4 / 5)) ∧
      determinant
        (rotateAbout (Vector2F.mk (1 / 2 : ℚ) (1 / 2)) ⟨3 / 5, 4 / 5⟩ ⟨0, 0⟩ - ⟨0, 0⟩)
        (rotateAbout (Vector2F.mk (1 / 2 : ℚ) (1 / 2)) ⟨3 / 5, 4 / 5⟩ ⟨1, 0⟩ - ⟨1, 0⟩) ≠ 0 ∧
      rotationCenter (Vector2F.mk (0 : ℚ) 0)
        (rotateAbout (Vector2F.mk (1 / 2 : ℚ) (1 / 2)) ⟨3 / 5, 4 / 5⟩ ⟨0, 0⟩) ⟨1, 0⟩
        (rotateAbout (Vector2F.mk (1 / 2 : ℚ) (1 / 2)) ⟨3 / 5, 4 / 5⟩ ⟨1, 0⟩) = ⟨1 / 2, 1 / 2⟩ :=
  have hR : IsProperRotation (Vector2F.mk (3 / 5 : ℚ) (4 / 5)) := by
    constructor <;> norm_num
  have hD : determinant
      (rotateAbout (Vector2F.mk (1 / 2 : ℚ) (1 / 2)) ⟨3 / 5, 4 / 5⟩ ⟨0, 0⟩ - ⟨0, 0⟩)
      (rotateAbout (Vector2F.mk (1 / 2 : ℚ) (1 / 2)) ⟨3 / 5, 4 / 5⟩ ⟨1, 0⟩ - ⟨1, 0⟩) ≠ 0 := by
    norm_num [determinant, rotateAbout]
  ⟨hR, hD, c9_rotationCenter_fixed_point _ _ _ _ hR (Or.inr (Or.inr hD))⟩

/-! ## C10: recovering the centre from two points -/

/-- The cosine of a proper rotation is not 1. -/
theorem IsProperRotation.cos_ne_one {K : Type} [LinearOrderedField K] {cs : Vector2F K}
    (hR : IsProperRotation cs) : cs.X ≠ 1 := by
  obtain ⟨hcs, hne⟩ := hR
  intro hc
  apply hne
  refine ⟨hc, ?_⟩
  have : cs.Y * cs.Y = 0 := by rw [hc] at hcs; linear_combination hcs
  exact mul_self_eq_zero.mp this

/-- The pair `(√3/2, 1/2)`, cosine and sine of 30 degrees, is a proper
rotation. -/
theorem isProperRotation_thirty_degrees :
    IsProperRotation (Vector2F.mk (Real.sqrt 3 / 2) (1 / 2)) := by
  constructor
  · show Real.sqrt 3 / 2 * (Real.sqrt 3 / 2) + 1 / 2 * (1 / 2) = 1
    have h : Real.sqrt 3 * Real.sqrt 3 = 3 := Real.mul_self_sqrt (by norm_num)
    linear_combination (1 / 4 : ℝ) * h
  · rintro ⟨-, h⟩
    norm_num at h

/-- C10 (as stated, refuted): rotate the unit square by 30 degrees about its
centre `(1/2, 1/2)`.  For the two distinct opposite corners `(0,0)` and
`(1,1)`, `rotationCenter` returns the sentinel `(0,0)`, not the centre. -/
theorem c10_opposite_corners_counterexample :
    IsProperRotation (Vector2F.mk (Real.sqrt 3 / 2) (1 / 2)) ∧
      (Vector2F.mk (0 : ℝ) 0) ≠ ⟨1, 1⟩ ∧
      rotationCenter (Vector2F.mk (0 : ℝ) 0)
          (rotateAbout ⟨1 / 2, 1 / 2⟩ ⟨Real.sqrt 3 / 2, 1 / 2⟩ ⟨0, 0⟩) ⟨1, 1⟩
          (rotateAbout ⟨1 / 2, 1 / 2⟩ ⟨Real.sqrt 3 / 2, 1 / 2⟩ ⟨1, 1⟩) = ⟨0, 0⟩ ∧
      rotationCenter (Vector2F.mk (0 : ℝ) 0)
          (rotateAbout ⟨1 / 2, 1 / 2⟩ ⟨Real.sqrt 3 / 2, 1 / 2⟩ ⟨0, 0⟩) ⟨1, 1⟩
          (rotateAbout ⟨1 / 2, 1 / 2⟩ ⟨Real.sqrt 3 / 2, 1 / 2⟩ ⟨1, 1⟩) ≠ ⟨1 / 2, 1 / 2⟩ := by
  have h0 : rotationCenter (Vector2F.mk (0 : ℝ) 0)
      (rotateAbout ⟨1 / 2, 1 / 2⟩ ⟨Real.sqrt 3 / 2, 1 / 2⟩ ⟨0, 0⟩) ⟨1, 1⟩
      (rotateAbout ⟨1 / 2, 1 / 2⟩ ⟨Real.sqrt 3 / 2, 1 / 2⟩ ⟨1, 1⟩) = ⟨0, 0⟩ := by
    apply rotationCenter_collinear _ _ _ _ isProperRotation_thirty_degrees
    · rw [ne_eq, Vector2F.eq_iff]; norm_num
    · rw [ne_eq, Vector2F.eq_iff]; norm_num
    · norm_num [determinant]
  refine ⟨isProperRotation_thirty_degrees, ?_, h0, ?_⟩
  · rw [ne_eq, Vector2F.eq_iff]; norm_num
  · rw [h0, ne_eq, Vector2F.eq_iff]; norm_num

/-- C10 (amended): for every rotation `R` by an angle that is not a multiple
of a full turn about a centre `p`, and every two distinct points `v != w`
such that `v = p`, or `w = p`, or `p` is not on the line through `v` and `w`
(`determinant(v-p, w-p) != 0`), `rotationCenter(v, R(v), w, R(w)) = p`. -/
theorem c10_rotationCenter_two_points {K : Type} [LinearOrderedField K] (p cs v w : Vector2F K)
    (hR : IsProperRotation cs) (_hvw : v ≠ w)
    (hPos : v = p ∨ w = p ∨ determinant (v - p) (w - p) ≠ 0) :
    rotationCenter v (rotateAbout p cs v) w (rotateAbout p cs w) = p := by
  apply rotationCenter_of_not_sentinel p cs v w hR
  rintro ⟨hv, hw, hD⟩
  rw [equals_eq_false_iff] at hv hw
  rcases hPos with h | h | h
  · exact hv ((rotateAbout_eq_self_iff p cs v hR).mpr h).symm
  · exact hw ((rotateAbout_eq_self_iff p cs w hR).mpr h).symm
  · rw [bisector_denominator, displacement_determinant p cs v w hR.1] at hD
    rcases mul_eq_zero.mp hD with h2 | h2
    · apply hR.cos_ne_one
      linear_combination (-1 / 2 : K) * h2
    · exact h h2

/-- Witness of C10 (amended): the unit square rotated by 30 degrees about its
centre, with the two adjacent corners `(0,0)` and `(1,0)`. -/
theorem c10_rotationCenter_two_points_witness :
    rotationCenter (Vector2F.mk (0 : ℝ) 0)
        (rotateAbout ⟨1 / 2, 1 / 2⟩ ⟨Real.sqrt 3 / 2, 1 / 2⟩ ⟨0, 0⟩) ⟨1, 0⟩
        (rotateAbout ⟨1 / 2, 1 / 2⟩ ⟨Real.sqrt 3 / 2, 1 / 2⟩ ⟨1, 0⟩) = ⟨1 / 2, 1 / 2⟩ :=
  c10_rotationCenter_two_points ⟨1 / 2, 1 / 2⟩ ⟨Real.sqrt 3 / 2, 1 / 2⟩ ⟨0, 0⟩ ⟨1, 0⟩
    isProperRotation_thirty_degrees
    (by rw [ne_eq, Vector2F.eq_iff]; norm_num)
    (Or.inr (Or.inr (by norm_num [determinant])))

/-! ## The right-angle shortcut in exact arithmetic -/

namespace VectorUtils

theorem sq_dist_pos_of_ne (v w : Vector2F ℝ) (h : v ≠ w) :
    0 < (v.X - w.X) * (v.X - w.X) + (v.Y - w.Y) * (v.Y - w.Y) := by
  have h1 : 0 < distance v w := (distance_pos_iff v w).mpr h
  rw [← distance_mul_self]
  exact mul_pos h1 h1

theorem dot_comm {K : Type} [LinearOrderedField K] (v w : Vector2F K) : dot v w = dot w v := by
  simp only [dot]; ring

/-- The dot product of the normalized vectors is the dot product divided by
the two magnitudes. -/
theorem dot_normalize (x y : Vector2F ℝ) :
    dot (normalize x) (normalize y) = dot x y / (distance 0 x * distance 0 y) := by
  simp only [dot, normalize, Vector2F.divScalar_X, Vector2F.divScalar_Y]
  rw [div_mul_div_comm, div_mul_div_comm, ← add_div]

end VectorUtils

namespace TransparentTriangle

/-- A right angle at `p1` puts `p1` opposite the longest edge. -/
theorem relabel_rightAngle_p1 (p1 p2 p3 : Vector2F ℝ) (h : RightAngleAt p1 p2 p3) :
    relabel p1 p2 p3 = { a := p2, b := p3, c := p1 } := by
  obtain ⟨hdot, -, -⟩ := h
  simp only [dot, Vector2F.sub_X, Vector2F.sub_Y] at hdot
  rw [relabel_eq, if_pos]
  rw [distance_le_iff, distance_le_iff]
  constructor
  · nlinarith [mul_self_nonneg (p2.X - p1.X), mul_self_nonneg (p2.Y - p1.Y)]
  · nlinarith [mul_self_nonneg (p3.X - p1.X), mul_self_nonneg (p3.Y - p1.Y)]

/-- A right angle at `p2` puts `p2` opposite the longest edge. -/
theorem relabel_rightAngle_p2 (p1 p2 p3 : Vector2F ℝ) (h : RightAngleAt p2 p3 p1) :
    relabel p1 p2 p3 = { a := p3, b := p1, c := p2 } := by
  obtain ⟨hdot, -, h1⟩ := h
  simp only [dot, Vector2F.sub_X, Vector2F.sub_Y] at hdot
  have hpos := sq_dist_pos_of_ne p1 p2 h1
  rw [relabel_eq, if_neg, if_pos]
  · rw [distance_le_iff, distance_le_iff]
    constructor
    · nlinarith [mul_self_nonneg (p1.X - p2.X), mul_self_nonneg (p1.Y - p2.Y)]
    · nlinarith [mul_self_nonneg (p3.X - p2.X), mul_self_nonneg (p3.Y - p2.Y)]
  · rintro ⟨h2, -⟩
    rw [distance_le_iff] at h2
    nlinarith

/-- A right angle at `p3` puts `p3` opposite the longest edge. -/
theorem relabel_rightAngle_p3 (p1 p2 p3 : Vector2F ℝ) (h : RightAngleAt p3 p1 p2) :
    relabel p1 p2 p3 = { a := p1, b := p2, c := p3 } := by
  obtain ⟨hdot, h1, h2⟩ := h
  simp only [dot, Vector2F.sub_X, Vector2F.sub_Y] at hdot
  have hpos1 := sq_dist_pos_of_ne p1 p3 h1
  have hpos2 := sq_dist_pos_of_ne p2 p3 h2
  rw [relabel_eq, if_neg, if_neg]
  · rintro ⟨-, h3⟩
    rw [distance_le_iff] at h3
    nlinarith
  · rintro ⟨-, h3⟩
    rw [distance_le_iff] at h3
    nlinarith

/-- With an exact right angle at `v` the labels that reach line 63 have
`c = v` and perpendicular legs. -/
theorem renderLabels_rightAngle (p1 p2 p3 v : Vector2F ℝ)
    (h : (v = p1 ∧ RightAngleAt p1 p2 p3) ∨ (v = p2 ∧ RightAngleAt p2 p3 p1) ∨
      (v = p3 ∧ RightAngleAt p3 p1 p2)) :
    (renderLabels p1 p2 p3).c = v ∧
      dot ((renderLabels p1 p2 p3).a - (renderLabels p1 p2 p3).c)
        ((renderLabels p1 p2 p3).b - (renderLabels p1 p2 p3).c) = 0 := by
  have key : (relabel p1 p2 p3).c = v ∧
      dot ((relabel p1 p2 p3).a - (relabel p1 p2 p3).c)
        ((relabel p1 p2 p3).b - (relabel p1 p2 p3).c) = 0 := by
    rcases h with ⟨hv, hr⟩ | ⟨hv, hr⟩ | ⟨hv, hr⟩
    · rw [relabel_rightAngle_p1 p1 p2 p3 hr, hv]; exact ⟨rfl, hr.1⟩
    · rw [relabel_rightAngle_p2 p1 p2 p3 hr, hv]; exact ⟨rfl, hr.1⟩
    · rw [relabel_rightAngle_p3 p1 p2 p3 hr, hv]; exact ⟨rfl, hr.1⟩
  obtain ⟨hc, hab | hab⟩ := windingSwap_cases (relabel p1 p2 p3)
  · unfold renderLabels
    rw [hc, hab.1, hab.2]
    exact key
  · unfold renderLabels
    rw [hc, hab.1, hab.2, dot_comm]
    exact key

/-- When the legs at `c` are perpendicular, `Render` with a loaded image is
one `RenderRightTriangle` step. -/
theorem Render_of_perpendicular (self : TransparentTriangle) (k : ℝ) (canvas : CanvasWrapper)
    (p1 p2 p3 : Vector2F ℝ) (hl : self.imageLoaded = true)
    (hdot : dot ((renderLabels p1 p2 p3).a - (renderLabels p1 p2 p3).c)
        ((renderLabels p1 p2 p3).b - (renderLabels p1 p2 p3).c) = 0) :
    Render self k canvas p1 p2 p3 =
      RenderRightTriangle self k canvas (renderLabels p1 p2 p3).a (renderLabels p1 p2 p3).b
        (renderLabels p1 p2 p3).c := by
  unfold Render
  simp only [hl, Bool.not_true, Bool.false_eq_true, if_false]
  rw [if_pos]
  rw [dot_normalize, hdot, zero_div, abs_zero]
  norm_num [FLT_EPSILON]

end TransparentTriangle

/-! ## C4: area preservation -/

namespace TransparentTriangle

/-- The labels that reach line 63 are one of the six orderings of the
input. -/
theorem renderLabels_cases (p1 p2 p3 : Vector2F ℝ) :
    renderLabels p1 p2 p3 = { a := p2, b := p3, c := p1 } ∨
      renderLabels p1 p2 p3 = { a := p3, b := p2, c := p1 } ∨
      renderLabels p1 p2 p3 = { a := p3, b := p1, c := p2 } ∨
      renderLabels p1 p2 p3 = { a := p1, b := p3, c := p2 } ∨
      renderLabels p1 p2 p3 = { a := p1, b := p2, c := p3 } ∨
      renderLabels p1 p2 p3 = { a := p2, b := p1, c := p3 } := by
  unfold renderLabels windingSwap
  rw [relabel_eq]
  split_ifs <;> simp

/-- The relabeling does not change the unsigned area. -/
theorem renderLabels_area (p1 p2 p3 : Vector2F ℝ) :
    triangleArea (renderLabels p1 p2 p3).a (renderLabels p1 p2 p3).b (renderLabels p1 p2 p3).c
      = triangleArea p1 p2 p3 := by
  have hneg : ∀ x y : ℝ, x = -y → |x| / 2 = |y| / 2 := by
    intro x y h; rw [h, abs_neg]
  have heq : ∀ x y : ℝ, x = y → |x| / 2 = |y| / 2 := by
    intro x y h; rw [h]
  rcases renderLabels_cases p1 p2 p3 with h | h | h | h | h | h <;> rw [h] <;>
    simp only [triangleArea, determinant, Vector2F.sub_X, Vector2F.sub_Y]
  · apply heq; ring
  · apply hneg; ring
  · apply heq; ring
  · apply hneg; ring
  · apply hneg; ring

/-- The two pieces `(c, a, d)` and `(b, c, d)` have the area of `(a, b, c)`
as soon as `ab` is a longest edge, whatever the orientation. -/
theorem area_split (a b c : Vector2F ℝ)
    (h1 : distance a c ≤ distance a b) (h2 : distance b c ≤ distance a b) :
    triangleArea c a (heightBase a b c) + triangleArea b c (heightBase a b c)
      = triangleArea a b c := by
  rw [distance_le_iff] at h1 h2
  have hn : 0 ≤ dot (b - a) (b - a) := by
    simp only [dot, Vector2F.sub_X, Vector2F.sub_Y]
    exact add_nonneg (mul_self_nonneg _) (mul_self_nonneg _)
  have ht0 : 0 ≤ heightParam a b c := by
    unfold heightParam
    apply div_nonneg _ hn
    simp only [dot, Vector2F.sub_X, Vector2F.sub_Y]
    nlinarith
  have ht1 : heightParam a b c ≤ 1 := by
    unfold heightParam
    apply div_le_one_of_le₀ _ hn
    simp only [dot, Vector2F.sub_X, Vector2F.sub_Y]
    nlinarith
  have e1 : determinant (a - c) (heightBase a b c - c)
      = (1 - heightParam a b c) * determinant (b - a) (c - a) := by
    simp only [heightBase, determinant, Vector2F.sub_X, Vector2F.sub_Y, Vector2F.add_X,
      Vector2F.add_Y, Vector2F.scale_X, Vector2F.scale_Y]
    ring
  have e2 : determinant (c - b) (heightBase a b c - b)
      = heightParam a b c * determinant (b - a) (c - a) := by
    simp only [heightBase, determinant, Vector2F.sub_X, Vector2F.sub_Y, Vector2F.add_X,
      Vector2F.add_Y, Vector2F.scale_X, Vector2F.scale_Y]
    ring
  simp only [triangleArea]
  rw [e1, e2, abs_mul, abs_mul, abs_of_nonneg ht0, abs_of_nonneg (sub_nonneg.mpr ht1)]
  ring

end TransparentTriangle

/-- C4: for every triangle of non-zero area, with `(a, b, c)` as relabeled by
`Render` and `d = a*t + b*(1-t)`, `t = dot(b-c,b-a)/dot(b-a,b-a)`, the
denominator of `t` is not zero and the unsigned area of `(c, a, d)` plus the
unsigned area of `(b, c, d)` equals the area of `(a, b, c)`, which is the
area of the input triangle. -/
theorem c4_area_preservation (p1 p2 p3 : Vector2F ℝ)
    (hArea : triangleArea p1 p2 p3 ≠ 0) :
    dot ((renderLabels p1 p2 p3).b - (renderLabels p1 p2 p3).a)
        ((renderLabels p1 p2 p3).b - (renderLabels p1 p2 p3).a) ≠ 0 ∧
      triangleArea (renderLabels p1 p2 p3).c (renderLabels p1 p2 p3).a
          (heightBase (renderLabels p1 p2 p3).a (renderLabels p1 p2 p3).b
            (renderLabels p1 p2 p3).c)
        + triangleArea (renderLabels p1 p2 p3).b (renderLabels p1 p2 p3).c
          (heightBase (renderLabels p1 p2 p3).a (renderLabels p1 p2 p3).b
            (renderLabels p1 p2 p3).c)
        = triangleArea (renderLabels p1 p2 p3).a (renderLabels p1 p2 p3).b
          (renderLabels p1 p2 p3).c ∧
      triangleArea (renderLabels p1 p2 p3).a (renderLabels p1 p2 p3).b
          (renderLabels p1 p2 p3).c = triangleArea p1 p2 p3 := by
  refine ⟨?_, area_split _ _ _ (renderLabels_longest p1 p2 p3).1
    (renderLabels_longest p1 p2 p3).2, renderLabels_area p1 p2 p3⟩
  intro h0
  apply hArea
  rw [← renderLabels_area p1 p2 p3]
  simp only [dot, Vector2F.sub_X, Vector2F.sub_Y] at h0
  have hx : (renderLabels p1 p2 p3).b.X - (renderLabels p1 p2 p3).a.X = 0 := by
    nlinarith [mul_self_nonneg ((renderLabels p1 p2 p3).b.X - (renderLabels p1 p2 p3).a.X),
      mul_self_nonneg ((renderLabels p1 p2 p3).b.Y - (renderLabels p1 p2 p3).a.Y)]
  have hy : (renderLabels p1 p2 p3).b.Y - (renderLabels p1 p2 p3).a.Y = 0 := by
    nlinarith [mul_self_nonneg ((renderLabels p1 p2 p3).b.X - (renderLabels p1 p2 p3).a.X),
      mul_self_nonneg ((renderLabels p1 p2 p3).b.Y - (renderLabels p1 p2 p3).a.Y)]
  simp only [triangleArea, determinant, Vector2F.sub_X, Vector2F.sub_Y, hx, hy]
  simp

/-- Witness of C4: the third example of `Test`, `(700,700), (300,600),
(200,500)`, which has no right angle. -/
theorem c4_area_preservation_witness :
    dot ((renderLabels ⟨700, 700⟩ ⟨300, 600⟩ ⟨200, 500⟩).b
          - (renderLabels ⟨700, 700⟩ ⟨300, 600⟩ ⟨200, 500⟩).a)
        ((renderLabels ⟨700, 700⟩ ⟨300, 600⟩ ⟨200, 500⟩).b
          - (renderLabels ⟨700, 700⟩ ⟨300, 600⟩ ⟨200, 500⟩).a) ≠ 0 ∧
      triangleArea (renderLabels ⟨700, 700⟩ ⟨300, 600⟩ ⟨200, 500⟩).c
          (renderLabels ⟨700, 700⟩ ⟨300, 600⟩ ⟨200, 500⟩).a
          (heightBase (renderLabels ⟨700, 700⟩ ⟨300, 600⟩ ⟨200, 500⟩).a
            (renderLabels ⟨700, 700⟩ ⟨300, 600⟩ ⟨200, 500⟩).b
            (renderLabels ⟨700, 700⟩ ⟨300, 600⟩ ⟨200, 500⟩).c)
        + triangleArea (renderLabels ⟨700, 700⟩ ⟨300, 600⟩ ⟨200, 500⟩).b
          (renderLabels ⟨700, 700⟩ ⟨300, 600⟩ ⟨200, 500⟩).c
          (heightBase (renderLabels ⟨700, 700⟩ ⟨300, 600⟩ ⟨200, 500⟩).a
            (renderLabels ⟨700, 700⟩ ⟨300, 600⟩ ⟨200, 500⟩).b
            (renderLabels ⟨700, 700⟩ ⟨300, 600⟩ ⟨200, 500⟩).c)
        = triangleArea (renderLabels ⟨700, 700⟩ ⟨300, 600⟩ ⟨200, 500⟩).a
          (renderLabels ⟨700, 700⟩ ⟨300, 600⟩ ⟨200, 500⟩).b
          (renderLabels ⟨700, 700⟩ ⟨300, 600⟩ ⟨200, 500⟩).c ∧
      triangleArea (renderLabels ⟨700, 700⟩ ⟨300, 600⟩ ⟨200, 500⟩).a
          (renderLabels ⟨700, 700⟩ ⟨300, 600⟩ ⟨200, 500⟩).b
          (renderLabels ⟨700, 700⟩ ⟨300, 600⟩ ⟨200, 500⟩).c
        = triangleArea (Vector2F.mk (700 : ℝ) 700) ⟨300, 600⟩ ⟨200, 500⟩ :=
  c4_area_preservation ⟨700, 700⟩ ⟨300, 600⟩ ⟨200, 500⟩
    (by norm_num [triangleArea, determinant])

/-! ## C6, C7: placing the tile -/

namespace VectorUtils

theorem distance_zero_sub (a c : Vector2F ℝ) : distance 0 (a - c) = distance a c := by
  simp only [distance, Vector2F.sub_X, Vector2F.sub_Y, Vector2F.zero_X, Vector2F.zero_Y]
  congr 1; ring

/-- In a right triangle with the right angle at `c` and
`determinant(a-c, b-c) < 0`, the leg `c→b` is the leg `c→a` turned by a
quarter turn and rescaled. -/
theorem right_triangle_legs (a b c : Vector2F ℝ) (hdot : dot (a - c) (b - c) = 0)
    (hac : a ≠ c) (hdet : determinant (a - c) (b - c) < 0) :
    (b.X - c.X) * distance a c = distance b c * (a.Y - c.Y) ∧
      (b.Y - c.Y) * distance a c = -(distance b c * (a.X - c.X)) := by
  have hsx := distance_mul_self a c
  have hsy := distance_mul_self b c
  have hsx0 : 0 < distance a c := (distance_pos_iff a c).mpr hac
  have hsy0 : 0 ≤ distance b c := distance_nonneg b c
  simp only [dot, determinant, Vector2F.sub_X, Vector2F.sub_Y] at hdot hdet
  generalize distance a c = sx at *
  generalize distance b c = sy at *
  have hD2 : ((a.X - c.X) * (b.Y - c.Y) - (a.Y - c.Y) * (b.X - c.X) - sx * sy) *
      ((a.X - c.X) * (b.Y - c.Y) - (a.Y - c.Y) * (b.X - c.X) + sx * sy) = 0 := by
    linear_combination
      (-((b.X - c.X) * (b.X - c.X) + (b.Y - c.Y) * (b.Y - c.Y))) * hsx
        + (-(sx * sx)) * hsy
        - ((a.X - c.X) * (b.X - c.X) + (a.Y - c.Y) * (b.Y - c.Y)) * hdot
  have hD : (a.X - c.X) * (b.Y - c.Y) - (a.Y - c.Y) * (b.X - c.X) + sx * sy = 0 := by
    rcases mul_eq_zero.mp hD2 with h | h
    · have : 0 ≤ sx * sy := mul_nonneg hsx0.le hsy0
      linarith
    · exact h
  have hsxne : sx ≠ 0 := hsx0.ne'
  constructor
  · apply mul_right_cancel₀ hsxne
    linear_combination (b.X - c.X) * hsx + (a.X - c.X) * hdot - (a.Y - c.Y) * hD
  · apply mul_right_cancel₀ hsxne
    linear_combination (b.Y - c.Y) * hsx + (a.Y - c.Y) * hdot + (a.X - c.X) * hD

end VectorUtils

section Placement

open TransparentTriangle

/-- The rotation with cosine and sine `normalize(a-c)` sends the width leg
`(size.X, 0)` of the rectangle to `a - c` and the height leg `(0, size.Y)` to
`c - b`: rotating about any pivot `p`, a rectangle whose origin `o` lands on
`b` has its bottom-left corner on `c` and its bottom-right corner on `a`. -/
theorem rectangle_corners (a b c o p : Vector2F ℝ) (hdot : dot (a - c) (b - c) = 0)
    (hac : a ≠ c) (hdet : determinant (a - c) (b - c) < 0)
    (ho : rotateAbout p (normalize (a - c)) o = b) :
    rotateAbout p (normalize (a - c)) (o + ⟨0, distance b c⟩) = c ∧
      rotateAbout p (normalize (a - c)) (o + ⟨distance a c, distance b c⟩) = a := by
  obtain ⟨hX, hY⟩ := right_triangle_legs a b c hdot hac hdet
  have hsx0 : distance a c ≠ 0 := ((distance_pos_iff a c).mpr hac).ne'
  rw [Vector2F.eq_iff] at ho
  rw [Vector2F.eq_iff, Vector2F.eq_iff]
  simp only [rotateAbout, VectorUtils.normalize, distance_zero_sub, Vector2F.divScalar_X,
    Vector2F.divScalar_Y, Vector2F.sub_X, Vector2F.sub_Y, Vector2F.add_X, Vector2F.add_Y]
    at ho ⊢
  obtain ⟨hoX, hoY⟩ := ho
  generalize distance a c = sx at *
  generalize distance b c = sy at *
  field_simp at hoX hoY
  refine ⟨⟨?_, ?_⟩, ⟨?_, ?_⟩⟩
  · field_simp
    linear_combination hoX + hX
  · field_simp
    linear_combination hoY + hY
  · field_simp
    linear_combination hoX + hX
  · field_simp
    linear_combination hoY + hY

end Placement

section Placement2

open TransparentTriangle

theorem rotateAbout_self {K : Type} [LinearOrderedField K] (p cs : Vector2F K) :
    rotateAbout p cs p = p := by
  rw [Vector2F.eq_iff]; simp [rotateAbout]

/-- The cosine and sine of the angle `atan2((a-c).Y, (a-c).X)` that
`RenderRightTriangle` turns into the rotator are the components of
`normalize(a-c)`. -/
theorem cos_sin_destAngle (a c : Vector2F ℝ) (hac : a ≠ c) :
    Vector2F.mk (Real.cos (destAngle a c)) (Real.sin (destAngle a c)) = normalize (a - c) := by
  have hz : (Complex.mk (a - c).X (a - c).Y) ≠ 0 := by
    intro h
    apply hac
    have h1 := congrArg Complex.re h
    have h2 := congrArg Complex.im h
    simp only [Vector2F.sub_X, Vector2F.sub_Y, Complex.zero_re, Complex.zero_im] at h1 h2
    rw [Vector2F.eq_iff]
    constructor <;> linarith
  have habs : Complex.abs (Complex.mk (a - c).X (a - c).Y) = distance 0 (a - c) := by
    rw [Complex.abs_apply, Complex.normSq_mk]
    simp only [distance, Vector2F.sub_X, Vector2F.sub_Y, Vector2F.zero_X, Vector2F.zero_Y]
    congr 1; ring
  rw [Vector2F.eq_iff]
  simp only [destAngle, atan2, VectorUtils.normalize, Vector2F.divScalar_X, Vector2F.divScalar_Y]
  rw [Complex.cos_arg hz, Complex.sin_arg, habs]
  exact ⟨rfl, rfl⟩

/-- For every proper rotation there is a centre about which it sends `o`
to `q`. -/
theorem exists_rotation_center {K : Type} [LinearOrderedField K] (o q cs : Vector2F K)
    (hR : IsProperRotation cs) : ∃ p, rotateAbout p cs o = q := by
  have hk : (2 - 2 * cs.X) ≠ 0 := by
    intro h0
    apply hR.cos_ne_one
    linear_combination (-1 / 2 : K) * h0
  refine ⟨⟨o.X + ((1 - cs.X) * (q.X - o.X) - cs.Y * (q.Y - o.Y)) / (2 - 2 * cs.X),
    o.Y + (cs.Y * (q.X - o.X) + (1 - cs.X) * (q.Y - o.Y)) / (2 - 2 * cs.X)⟩, ?_⟩
  rw [Vector2F.eq_iff]
  simp only [rotateAbout]
  obtain ⟨hcs, -⟩ := hR
  constructor
  · field_simp
    linear_combination (q.X - o.X) * hcs
  · field_simp
    linear_combination (q.Y - o.Y) * hcs

/-- The direction `normalize(a-c)` is a proper rotation when `a.Y != c.Y`. -/
theorem isProperRotation_normalize (a c : Vector2F ℝ) (haY : a.Y ≠ c.Y) :
    IsProperRotation (normalize (a - c)) := by
  have hac : a ≠ c := by
    intro h; exact haY (by rw [h])
  have hsx0 : distance a c ≠ 0 := ((distance_pos_iff a c).mpr hac).ne'
  have hsx := distance_mul_self a c
  simp only [IsProperRotation, VectorUtils.normalize, distance_zero_sub, Vector2F.divScalar_X,
    Vector2F.divScalar_Y, Vector2F.sub_X, Vector2F.sub_Y]
  constructor
  · field_simp
    linear_combination -hsx
  · rintro ⟨-, h⟩
    rcases div_eq_zero_iff.mp h with h | h
    · exact haY (by linarith)
    · exact hsx0 h

end Placement2

namespace TransparentTriangle

/-- The axis-aligned branch of `RenderRightTriangle` (lines 88-92). -/
theorem RenderRightTriangle_axis (self : TransparentTriangle) (k : ℝ) (canvas : CanvasWrapper)
    (a b c : Vector2F ℝ) (haY : a.Y = c.Y) :
    RenderRightTriangle self k canvas a b c =
      [ CanvasCall.SetPosition b,
        CanvasCall.DrawRotatedTile (Rotator.mk 0 (destAngle a c * k) 0)
          (destSize a b c).X (destSize a b c).Y 1 1
          (self.triangleImage.GetSizeF.X - 2) (self.triangleImage.GetSizeF.Y - 2) 0 0 ] := by
  unfold RenderRightTriangle
  simp only [haY, if_true]
  rfl

/-- The rotated branch of `RenderRightTriangle` (lines 93-103). -/
theorem RenderRightTriangle_rotated (self : TransparentTriangle) (k : ℝ) (canvas : CanvasWrapper)
    (a b c : Vector2F ℝ) (haY : a.Y ≠ c.Y) :
    RenderRightTriangle self k canvas a b c =
      [ CanvasCall.SetPosition (rotatedTopLeft canvas a b c),
        CanvasCall.DrawRotatedTile (Rotator.mk 0 (destAngle a c * k) 0)
          (destSize a b c).X (destSize a b c).Y 1 1
          (self.triangleImage.GetSizeF.X - 2) (self.triangleImage.GetSizeF.Y - 2)
          ((rotatedPivot canvas a b c - rotatedTopLeft canvas a b c) / destSize a b c).X
          ((rotatedPivot canvas a b c - rotatedTopLeft canvas a b c) / destSize a b c).Y ] := by
  unfold RenderRightTriangle
  simp only [haY, if_false]
  rfl

end TransparentTriangle

/-- C7: axis-aligned branch.  For every `(a, b, c)` with an exact right angle
at `c`, `a.Y == c.Y`, `a != c`, `b != c` and `determinant(a-c, b-c) < 0`,
`RenderRightTriangle` sets the position to `b` and draws the tile of size
`(distance(a,c), distance(b,c))` with pivot `(0,0)`; rotating that rectangle
about its origin `b` by the angle `atan2((a-c).Y, (a-c).X)` maps its
bottom-left corner `b + (0, size.Y)` to `c` and its bottom-right corner
`b + size` to `a`. -/
theorem c7_axis_aligned_placement (self : TransparentTriangle) (k : ℝ) (canvas : CanvasWrapper)
    (a b c : Vector2F ℝ) (hdot : dot (a - c) (b - c) = 0) (haY : a.Y = c.Y)
    (hac : a ≠ c) (_hbc : b ≠ c) (hdet : determinant (a - c) (b - c) < 0) :
    RenderRightTriangle self k canvas a b c =
        [ CanvasCall.SetPosition b,
          CanvasCall.DrawRotatedTile (Rotator.mk 0 (destAngle a c * k) 0)
            (destSize a b c).X (destSize a b c).Y 1 1
            (self.triangleImage.GetSizeF.X - 2) (self.triangleImage.GetSizeF.Y - 2) 0 0 ] ∧
      rotateAbout b ⟨Real.cos (destAngle a c), Real.sin (destAngle a c)⟩
          (b + ⟨0, (destSize a b c).Y⟩) = c ∧
      rotateAbout b ⟨Real.cos (destAngle a c), Real.sin (destAngle a c)⟩
          (b + destSize a b c) = a := by
  refine ⟨RenderRightTriangle_axis self k canvas a b c haY, ?_⟩
  rw [cos_sin_destAngle a c hac]
  exact rectangle_corners a b c b b hdot hac hdet (rotateAbout_self _ _)

/-- Witness of C7: the labels `a = (200,200)`, `b = (500,400)`,
`c = (500,200)` that `Render` computes for the first example of `Test`. -/
theorem c7_axis_aligned_placement_witness :
    RenderRightTriangle (TransparentTriangle.mk (ImageWrapper.mk true true ⟨64, 64⟩) true) 1
        (CanvasWrapper.mk ⟨1920, 1080⟩) ⟨200, 200⟩ ⟨500, 400⟩ ⟨500, 200⟩ =
        [ CanvasCall.SetPosition ⟨500, 400⟩,
          CanvasCall.DrawRotatedTile
            (Rotator.mk 0 (destAngle ⟨200, 200⟩ ⟨500, 200⟩ * 1) 0)
            (destSize ⟨200, 200⟩ ⟨500, 400⟩ ⟨500, 200⟩).X
            (destSize ⟨200, 200⟩ ⟨500, 400⟩ ⟨500, 200⟩).Y 1 1
            ((64 : ℝ) - 2) ((64 : ℝ) - 2) 0 0 ] ∧
      rotateAbout (Vector2F.mk (500 : ℝ) 400)
          ⟨Real.cos (destAngle ⟨200, 200⟩ ⟨500, 200⟩),
            Real.sin (destAngle ⟨200, 200⟩ ⟨500, 200⟩)⟩
          (⟨500, 400⟩ + ⟨0, (destSize ⟨200, 200⟩ ⟨500, 400⟩ ⟨500, 200⟩).Y⟩) = ⟨500, 200⟩ ∧
      rotateAbout (Vector2F.mk (500 : ℝ) 400)
          ⟨Real.cos (destAngle ⟨200, 200⟩ ⟨500, 200⟩),
            Real.sin (destAngle ⟨200, 200⟩ ⟨500, 200⟩)⟩
          (⟨500, 400⟩ + destSize ⟨200, 200⟩ ⟨500, 400⟩ ⟨500, 200⟩) = ⟨200, 200⟩ :=
  c7_axis_aligned_placement (TransparentTriangle.mk (ImageWrapper.mk true true ⟨64, 64⟩) true) 1
    (CanvasWrapper.mk ⟨1920, 1080⟩) ⟨200, 200⟩ ⟨500, 400⟩ ⟨500, 200⟩
    (by norm_num [dot]) rfl
    (by rw [ne_eq, Vector2F.eq_iff]; norm_num)
    (by rw [ne_eq, Vector2F.eq_iff]; norm_num)
    (by norm_num [determinant])

/-- C6: rotated branch.  For every `(a, b, c)` with an exact right angle at
`c`, `a.Y != c.Y`, `b != c`, `determinant(a-c, b-c) < 0`, and every canvas
size for which `rotationCenter` does not hit the parallel-bisector sentinel,
`RenderRightTriangle` sets the position to the clamped `topLeft` and draws
the tile of size `size = (distance(a,c), distance(b,c))` with the normalized
pivot `(p - topLeft) / size`, where
`p = rotationCenter(topLeft, b, topLeft+size, a)`; and with `R` the rotation
whose `(cos, sin)` is `normalize(a-c)`: `p + R(topLeft - p) = b`,
`p + R(topLeft+size - p) = a` and `p + R(topLeft+(0,size.Y) - p) = c`. -/
theorem c6_rotated_placement (self : TransparentTriangle) (k : ℝ) (canvas : CanvasWrapper)
    (a b c : Vector2F ℝ) (hdot : dot (a - c) (b - c) = 0) (haY : a.Y ≠ c.Y)
    (_hbc : b ≠ c) (hdet : determinant (a - c) (b - c) < 0)
    (hS : ¬ hitsSentinel (rotatedTopLeft canvas a b c) b
      (rotatedTopLeft canvas a b c + destSize a b c) a) :
    RenderRightTriangle self k canvas a b c =
        [ CanvasCall.SetPosition (rotatedTopLeft canvas a b c),
          CanvasCall.DrawRotatedTile (Rotator.mk 0 (destAngle a c * k) 0)
            (destSize a b c).X (destSize a b c).Y 1 1
            (self.triangleImage.GetSizeF.X - 2) (self.triangleImage.GetSizeF.Y - 2)
            ((rotatedPivot canvas a b c - rotatedTopLeft canvas a b c) / destSize a b c).X
            ((rotatedPivot canvas a b c - rotatedTopLeft canvas a b c) / destSize a b c).Y ] ∧
      rotateAbout (rotatedPivot canvas a b c) (normalize (a - c))
          (rotatedTopLeft canvas a b c) = b ∧
      rotateAbout (rotatedPivot canvas a b c) (normalize (a - c))
          (rotatedTopLeft canvas a b c + destSize a b c) = a ∧
      rotateAbout (rotatedPivot canvas a b c) (normalize (a - c))
          (rotatedTopLeft canvas a b c + ⟨0, (destSize a b c).Y⟩) = c := by
  refine ⟨RenderRightTriangle_rotated self k canvas a b c haY, ?_⟩
  have hac : a ≠ c := by
    intro h; exact haY (by rw [h])
  have hR := isProperRotation_normalize a c haY
  obtain ⟨p, hp⟩ := exists_rotation_center (rotatedTopLeft canvas a b c) b (normalize (a - c)) hR
  obtain ⟨hc, ha⟩ := rectangle_corners a b c (rotatedTopLeft canvas a b c) p hdot hac hdet hp
  have hpiv : rotatedPivot canvas a b c = p := by
    have h := rotationCenter_of_not_sentinel p (normalize (a - c))
      (rotatedTopLeft canvas a b c) (rotatedTopLeft canvas a b c + destSize a b c) hR
    rw [hp] at h
    have ha' : rotateAbout p (normalize (a - c))
        (rotatedTopLeft canvas a b c + destSize a b c) = a := ha
    rw [ha'] at h
    exact h hS
  rw [hpiv]
  exact ⟨hp, ha, hc⟩

namespace VectorUtils

/-- Evaluating `distance` at points whose squared distance is a known
square. -/
theorem distance_eq_of_mul_self (v w : Vector2F ℝ) (r : ℝ) (hr : 0 ≤ r)
    (h : (v.X - w.X) * (v.X - w.X) + (v.Y - w.Y) * (v.Y - w.Y) = r * r) :
    distance v w = r := by
  simp only [distance, Vector2F.sub_X, Vector2F.sub_Y]
  rw [h]
  exact Real.sqrt_mul_self hr

end VectorUtils

section RotatedExamples

open TransparentTriangle

theorem example_distance_a_c :
    distance (Vector2F.mk (1300 : ℝ) 1400) ⟨1000, 1000⟩ = 500 :=
  distance_eq_of_mul_self _ _ 500 (by norm_num) (by norm_num)

theorem example_distance_b_c :
    distance (Vector2F.mk (1800 : ℝ) 400) ⟨1000, 1000⟩ = 1000 :=
  distance_eq_of_mul_self _ _ 1000 (by norm_num) (by norm_num)

theorem example_destSize :
    destSize ⟨1300, 1400⟩ ⟨1800, 400⟩ ⟨1000, 1000⟩ = ⟨500, 1000⟩ := by
  simp only [destSize, example_distance_a_c, example_distance_b_c]

/-- On a 1920x1080 canvas the rectangle for `a = (1300,1400)`,
`b = (1800,400)`, `c = (1000,1000)` is shifted left and up. -/
theorem example_topLeft_1920 :
    rotatedTopLeft (CanvasWrapper.mk ⟨1920, 1080⟩) ⟨1300, 1400⟩ ⟨1800, 400⟩ ⟨1000, 1000⟩
      = ⟨1420, 80⟩ := by
  simp only [rotatedTopLeft, example_destSize, clampTopLeft, Vector2F.add_X, Vector2F.add_Y,
    Vector2F.sub_X, Vector2F.sub_Y]
  norm_num

/-- On a 1800x2000 canvas the same rectangle is shifted left only. -/
theorem example_topLeft_1800 :
    rotatedTopLeft (CanvasWrapper.mk ⟨1800, 2000⟩) ⟨1300, 1400⟩ ⟨1800, 400⟩ ⟨1000, 1000⟩
      = ⟨1300, 400⟩ := by
  simp only [rotatedTopLeft, example_destSize, clampTopLeft, Vector2F.add_X, Vector2F.add_Y,
    Vector2F.sub_X, Vector2F.sub_Y]
  norm_num

theorem example_normalize :
    normalize ((Vector2F.mk (1300 : ℝ) 1400) - ⟨1000, 1000⟩) = ⟨3 / 5, 4 / 5⟩ := by
  simp only [VectorUtils.normalize, distance_zero_sub, example_distance_a_c]
  rw [Vector2F.eq_iff]
  simp only [Vector2F.divScalar_X, Vector2F.divScalar_Y, Vector2F.sub_X, Vector2F.sub_Y]
  norm_num

end RotatedExamples

/-- Witness of C6: `a = (1300,1400)`, `b = (1800,400)`, `c = (1000,1000)` on
a 1920x1080 canvas, where the rectangle is clamped to `topLeft = (1420,80)`
and the two displacements are not parallel. -/
theorem c6_rotated_placement_witness :
    RenderRightTriangle (TransparentTriangle.mk (ImageWrapper.mk true true ⟨64, 64⟩) true) 1
        (CanvasWrapper.mk ⟨1920, 1080⟩) ⟨1300, 1400⟩ ⟨1800, 400⟩ ⟨1000, 1000⟩ =
        [ CanvasCall.SetPosition
            (rotatedTopLeft (CanvasWrapper.mk ⟨1920, 1080⟩) ⟨1300, 1400⟩ ⟨1800, 400⟩
              ⟨1000, 1000⟩),
          CanvasCall.DrawRotatedTile
            (Rotator.mk 0 (destAngle ⟨1300, 1400⟩ ⟨1000, 1000⟩ * 1) 0)
            (destSize ⟨1300, 1400⟩ ⟨1800, 400⟩ ⟨1000, 1000⟩).X
            (destSize ⟨1300, 1400⟩ ⟨1800, 400⟩ ⟨1000, 1000⟩).Y 1 1
            ((64 : ℝ) - 2) ((64 : ℝ) - 2)
            ((rotatedPivot (CanvasWrapper.mk ⟨1920, 1080⟩) ⟨1300, 1400⟩ ⟨1800, 400⟩
                ⟨1000, 1000⟩
              - rotatedTopLeft (CanvasWrapper.mk ⟨1920, 1080⟩) ⟨1300, 1400⟩ ⟨1800, 400⟩
                ⟨1000, 1000⟩)
              / destSize ⟨1300, 1400⟩ ⟨1800, 400⟩ ⟨1000, 1000⟩).X
            ((rotatedPivot (CanvasWrapper.mk ⟨1920, 1080⟩) ⟨1300, 1400⟩ ⟨1800, 400⟩
                ⟨1000, 1000⟩
              - rotatedTopLeft (CanvasWrapper.mk ⟨1920, 1080⟩) ⟨1300, 1400⟩ ⟨1800, 400⟩
                ⟨1000, 1000⟩)
              / destSize ⟨1300, 1400⟩ ⟨1800, 400⟩ ⟨1000, 1000⟩).Y ] ∧
      rotateAbout
          (rotatedPivot (CanvasWrapper.mk ⟨1920, 1080⟩) ⟨1300, 1400⟩ ⟨1800, 400⟩ ⟨1000, 1000⟩)
          (normalize ((Vector2F.mk (1300 : ℝ) 1400) - ⟨1000, 1000⟩))
          (rotatedTopLeft (CanvasWrapper.mk ⟨1920, 1080⟩) ⟨1300, 1400⟩ ⟨1800, 400⟩
            ⟨1000, 1000⟩) = ⟨1800, 400⟩ ∧
      rotateAbout
          (rotatedPivot (CanvasWrapper.mk ⟨1920, 1080⟩) ⟨1300, 1400⟩ ⟨1800, 400⟩ ⟨1000, 1000⟩)
          (normalize ((Vector2F.mk (1300 : ℝ) 1400) - ⟨1000, 1000⟩))
          (rotatedTopLeft (CanvasWrapper.mk ⟨1920, 1080⟩) ⟨1300, 1400⟩ ⟨1800, 400⟩
              ⟨1000, 1000⟩
            + destSize ⟨1300, 1400⟩ ⟨1800, 400⟩ ⟨1000, 1000⟩) = ⟨1300, 1400⟩ ∧
      rotateAbout
          (rotatedPivot (CanvasWrapper.mk ⟨1920, 1080⟩) ⟨1300, 1400⟩ ⟨1800, 400⟩ ⟨1000, 1000⟩)
          (normalize ((Vector2F.mk (1300 : ℝ) 1400) - ⟨1000, 1000⟩))
          (rotatedTopLeft (CanvasWrapper.mk ⟨1920, 1080⟩) ⟨1300, 1400⟩ ⟨1800, 400⟩
              ⟨1000, 1000⟩
            + ⟨0, (destSize ⟨1300, 1400⟩ ⟨1800, 400⟩ ⟨1000, 1000⟩).Y⟩) = ⟨1000, 1000⟩ :=
  c6_rotated_placement (TransparentTriangle.mk (ImageWrapper.mk true true ⟨64, 64⟩) true) 1
    (CanvasWrapper.mk ⟨1920, 1080⟩) ⟨1300, 1400⟩ ⟨1800, 400⟩ ⟨1000, 1000⟩
    (by norm_num [dot])
    (by norm_num)
    (by rw [ne_eq, Vector2F.eq_iff]; norm_num)
    (by norm_num [determinant])
    (by
      rintro ⟨-, -, h⟩
      rw [bisector_denominator, example_topLeft_1920, example_destSize] at h
      norm_num [determinant] at h)

/-! ## C8: the parallel-lines sentinel is reachable -/

section SentinelExample

open TransparentTriangle

theorem example_hitsSentinel_1800 :
    hitsSentinel
      (rotatedTopLeft (CanvasWrapper.mk ⟨1800, 2000⟩) ⟨1300, 1400⟩ ⟨1800, 400⟩ ⟨1000, 1000⟩)
      ⟨1800, 400⟩
      (rotatedTopLeft (CanvasWrapper.mk ⟨1800, 2000⟩) ⟨1300, 1400⟩ ⟨1800, 400⟩ ⟨1000, 1000⟩
        + destSize ⟨1300, 1400⟩ ⟨1800, 400⟩ ⟨1000, 1000⟩)
      ⟨1300, 1400⟩ := by
  rw [example_topLeft_1800, example_destSize]
  refine ⟨?_, ?_, ?_⟩
  · rw [equals_eq_false_iff, ne_eq, Vector2F.eq_iff]; norm_num
  · rw [equals_eq_false_iff, ne_eq, Vector2F.eq_iff]
    simp only [Vector2F.add_X, Vector2F.add_Y]
    norm_num
  · rw [bisector_denominator]
    norm_num [determinant]

theorem example_rotatedPivot_1800 :
    rotatedPivot (CanvasWrapper.mk ⟨1800, 2000⟩) ⟨1300, 1400⟩ ⟨1800, 400⟩ ⟨1000, 1000⟩
      = ⟨0, 0⟩ := by
  obtain ⟨h1, h2, h3⟩ := example_hitsSentinel_1800
  unfold rotatedPivot rotationCenter
  rw [h1, h2]
  simp only [Bool.false_eq_true, if_false]
  exact intersect_of_denominator_eq_zero _ _ _ _ h3

theorem example_renderLabels :
    renderLabels ⟨1300, 1400⟩ ⟨1800, 400⟩ ⟨1000, 1000⟩
      = { a := ⟨1300, 1400⟩, b := ⟨1800, 400⟩, c := ⟨1000, 1000⟩ } := by
  have hr : RightAngleAt (Vector2F.mk (1000 : ℝ) 1000) ⟨1300, 1400⟩ ⟨1800, 400⟩ := by
    refine ⟨?_, ?_, ?_⟩
    · norm_num [dot]
    · rw [ne_eq, Vector2F.eq_iff]; norm_num
    · rw [ne_eq, Vector2F.eq_iff]; norm_num
  unfold renderLabels windingSwap
  rw [relabel_rightAngle_p3 _ _ _ hr, if_neg]
  norm_num [determinant]

end SentinelExample

/-- C8 (code evaluated at the failing input): on an 1800x2000 canvas the
right triangle `(1300,1400), (1800,400), (1000,1000)` satisfies every
precondition of `RenderRightTriangle`, yet after clamping to
`topLeft = (1300,400)` the displacements `topLeft→b` and `bottomRight→a` are
parallel: `rotationCenter` reaches the sentinel of `intersect` and returns
`(0,0)`, although the rotation that places the tile has the centre
`(1550,900)`.  `Render` then draws the tile with the normalized pivot
`(-13/5, -2/5)`, and rotating about the returned pivot does not send
`topLeft` to `b`. -/
theorem c8_sentinel_reached (k : ℝ) :
    (dot ((Vector2F.mk (1300 : ℝ) 1400) - ⟨1000, 1000⟩) (⟨1800, 400⟩ - ⟨1000, 1000⟩) = 0 ∧
      (Vector2F.mk (1300 : ℝ) 1400) ≠ ⟨1000, 1000⟩ ∧
      (Vector2F.mk (1800 : ℝ) 400) ≠ ⟨1000, 1000⟩ ∧
      determinant ((Vector2F.mk (1300 : ℝ) 1400) - ⟨1000, 1000⟩)
        (⟨1800, 400⟩ - ⟨1000, 1000⟩) < 0 ∧
      (Vector2F.mk (1300 : ℝ) 1400).Y ≠ (Vector2F.mk (1000 : ℝ) 1000).Y) ∧
    hitsSentinel
      (rotatedTopLeft (CanvasWrapper.mk ⟨1800, 2000⟩) ⟨1300, 1400⟩ ⟨1800, 400⟩ ⟨1000, 1000⟩)
      ⟨1800, 400⟩
      (rotatedTopLeft (CanvasWrapper.mk ⟨1800, 2000⟩) ⟨1300, 1400⟩ ⟨1800, 400⟩ ⟨1000, 1000⟩
        + destSize ⟨1300, 1400⟩ ⟨1800, 400⟩ ⟨1000, 1000⟩)
      ⟨1300, 1400⟩ ∧
    rotatedPivot (CanvasWrapper.mk ⟨1800, 2000⟩) ⟨1300, 1400⟩ ⟨1800, 400⟩ ⟨1000, 1000⟩
      = ⟨0, 0⟩ ∧
    (rotateAbout (Vector2F.mk (1550 : ℝ) 900)
        (normalize ((Vector2F.mk (1300 : ℝ) 1400) - ⟨1000, 1000⟩)) ⟨1300, 400⟩ = ⟨1800, 400⟩ ∧
      rotateAbout (Vector2F.mk (1550 : ℝ) 900)
        (normalize ((Vector2F.mk (1300 : ℝ) 1400) - ⟨1000, 1000⟩)) ⟨1800, 1400⟩
        = ⟨1300, 1400⟩) ∧
    rotateAbout
        (rotatedPivot (CanvasWrapper.mk ⟨1800, 2000⟩) ⟨1300, 1400⟩ ⟨1800, 400⟩ ⟨1000, 1000⟩)
        (normalize ((Vector2F.mk (1300 : ℝ) 1400) - ⟨1000, 1000⟩))
        (rotatedTopLeft (CanvasWrapper.mk ⟨1800, 2000⟩) ⟨1300, 1400⟩ ⟨1800, 400⟩
          ⟨1000, 1000⟩) ≠ ⟨1800, 400⟩ ∧
    Render (TransparentTriangle.mk (ImageWrapper.mk true true ⟨64, 64⟩) true) k
        (CanvasWrapper.mk ⟨1800, 2000⟩) ⟨1300, 1400⟩ ⟨1800, 400⟩ ⟨1000, 1000⟩ =
      [ CanvasCall.SetPosition ⟨1300, 400⟩,
        CanvasCall.DrawRotatedTile
          (Rotator.mk 0 (destAngle ⟨1300, 1400⟩ ⟨1000, 1000⟩ * k) 0)
          500 1000 1 1 62 62 (-13 / 5) (-2 / 5) ] := by
  refine ⟨⟨?_, ?_, ?_, ?_, ?_⟩, example_hitsSentinel_1800, example_rotatedPivot_1800,
    ⟨?_, ?_⟩, ?_, ?_⟩
  · norm_num [dot]
  · rw [ne_eq, Vector2F.eq_iff]; norm_num
  · rw [ne_eq, Vector2F.eq_iff]; norm_num
  · norm_num [determinant]
  · norm_num
  · rw [example_normalize, Vector2F.eq_iff]
    norm_num [rotateAbout]
  · rw [example_normalize, Vector2F.eq_iff]
    norm_num [rotateAbout]
  · rw [example_rotatedPivot_1800, example_topLeft_1800, example_normalize, ne_eq,
      Vector2F.eq_iff]
    norm_num [rotateAbout]
  · have hdot : dot
        ((renderLabels ⟨1300, 1400⟩ ⟨1800, 400⟩ ⟨1000, 1000⟩).a
          - (renderLabels ⟨1300, 1400⟩ ⟨1800, 400⟩ ⟨1000, 1000⟩).c)
        ((renderLabels ⟨1300, 1400⟩ ⟨1800, 400⟩ ⟨1000, 1000⟩).b
          - (renderLabels ⟨1300, 1400⟩ ⟨1800, 400⟩ ⟨1000, 1000⟩).c) = 0 := by
      rw [example_renderLabels]
      norm_num [dot]
    rw [Render_of_perpendicular _ k _ _ _ _ rfl hdot, example_renderLabels]
    rw [RenderRightTriangle_rotated _ k _ _ _ _ (by norm_num)]
    rw [example_rotatedPivot_1800, example_topLeft_1800, example_destSize]
    simp only [Vector2F.sub_X, Vector2F.sub_Y, Vector2F.div_X, Vector2F.div_Y]
    norm_num

/-! ## C11: clamping to the canvas -/

namespace TransparentTriangle

/-- The clamped `topLeft`, coordinate by coordinate. -/
theorem clampTopLeft_X (canvasSize b size : Vector2F ℝ) :
    (clampTopLeft canvasSize b size).X =
      if b.X + size.X - canvasSize.X > 0 then canvasSize.X - size.X else b.X := by
  simp only [clampTopLeft, Vector2F.add_X, Vector2F.sub_X, Vector2F.add_Y, Vector2F.sub_Y]
  split_ifs <;> first | rfl | (simp only []; ring)

theorem clampTopLeft_Y (canvasSize b size : Vector2F ℝ) :
    (clampTopLeft canvasSize b size).Y =
      if b.Y + size.Y - canvasSize.Y > 0 then canvasSize.Y - size.Y else b.Y := by
  simp only [clampTopLeft, Vector2F.add_X, Vector2F.sub_X, Vector2F.add_Y, Vector2F.sub_Y]
  split_ifs <;> first | rfl | (simp only []; ring)

/-- Without overflow the clamping leaves `topLeft = b`. -/
theorem clampTopLeft_of_fits (canvasSize b size : Vector2F ℝ)
    (hX : b.X + size.X ≤ canvasSize.X) (hY : b.Y + size.Y ≤ canvasSize.Y) :
    clampTopLeft canvasSize b size = b := by
  rw [Vector2F.eq_iff, clampTopLeft_X, clampTopLeft_Y, if_neg (by linarith), if_neg (by linarith)]
  exact ⟨rfl, rfl⟩

end TransparentTriangle

section ClampExample

open TransparentTriangle

theorem example_destSize_tall :
    destSize ⟨160, 1030⟩ ⟨1300, 50⟩ ⟨100, 950⟩ = ⟨100, 1500⟩ := by
  have h1 : distance (Vector2F.mk (160 : ℝ) 1030) ⟨100, 950⟩ = 100 :=
    distance_eq_of_mul_self _ _ 100 (by norm_num) (by norm_num)
  have h2 : distance (Vector2F.mk (1300 : ℝ) 50) ⟨100, 950⟩ = 1500 :=
    distance_eq_of_mul_self _ _ 1500 (by norm_num) (by norm_num)
  simp only [destSize, h1, h2]

theorem example_topLeft_tall :
    rotatedTopLeft (CanvasWrapper.mk ⟨1920, 1080⟩) ⟨160, 1030⟩ ⟨1300, 50⟩ ⟨100, 950⟩
      = ⟨1300, -420⟩ := by
  rw [Vector2F.eq_iff]
  simp only [rotatedTopLeft, example_destSize_tall, clampTopLeft_X, clampTopLeft_Y]
  norm_num

end ClampExample

/-- C11 (as stated, refuted): on a 1920x1080 canvas the right triangle
`a = (160,1030)`, `b = (1300,50)`, `c = (100,950)` lies inside the canvas, has
its right angle at `c`, `determinant(a-c, b-c) < 0` and `a.Y != c.Y`; its leg
`cb` has length 1500, more than the canvas height, and the clamped rectangle
starts at `topLeft = (1300, -420)`, above the canvas. -/
theorem c11_top_edge_counterexample :
    (dot ((Vector2F.mk (160 : ℝ) 1030) - ⟨100, 950⟩) (⟨1300, 50⟩ - ⟨100, 950⟩) = 0 ∧
      determinant ((Vector2F.mk (160 : ℝ) 1030) - ⟨100, 950⟩) (⟨1300, 50⟩ - ⟨100, 950⟩) < 0 ∧
      (Vector2F.mk (160 : ℝ) 1030).Y ≠ (Vector2F.mk (100 : ℝ) 950).Y) ∧
    rotatedTopLeft (CanvasWrapper.mk ⟨1920, 1080⟩) ⟨160, 1030⟩ ⟨1300, 50⟩ ⟨100, 950⟩
      = ⟨1300, -420⟩ ∧
    ¬ (0 ≤ (rotatedTopLeft (CanvasWrapper.mk ⟨1920, 1080⟩) ⟨160, 1030⟩ ⟨1300, 50⟩
      ⟨100, 950⟩).Y) := by
  refine ⟨⟨?_, ?_, ?_⟩, example_topLeft_tall, ?_⟩
  · norm_num [dot]
  · norm_num [determinant]
  · norm_num
  · rw [example_topLeft_tall]; norm_num

/-- C11 (amended): in the rotated branch of `RenderRightTriangle`, for every
input `(a, b, c)` and every canvas size, after clamping the pre-rotation
rectangle does not pass the right or the bottom edge of the canvas:
`topLeft.X + size.X <= canvasWidth` and `topLeft.Y + size.Y <= canvasHeight`;
and `0 <= topLeft.X` holds when `0 <= b.X` and `size.X <= canvasWidth`,
`0 <= topLeft.Y` when `0 <= b.Y` and `size.Y <= canvasHeight`. -/
theorem c11_clamped_rectangle (canvas : CanvasWrapper) (a b c : Vector2F ℝ) :
    ((rotatedTopLeft canvas a b c).X + (destSize a b c).X ≤ canvas.GetSize.X ∧
      (rotatedTopLeft canvas a b c).Y + (destSize a b c).Y ≤ canvas.GetSize.Y) ∧
    (0 ≤ b.X → (destSize a b c).X ≤ canvas.GetSize.X → 0 ≤ (rotatedTopLeft canvas a b c).X) ∧
    (0 ≤ b.Y → (destSize a b c).Y ≤ canvas.GetSize.Y → 0 ≤ (rotatedTopLeft canvas a b c).Y) := by
  simp only [rotatedTopLeft, clampTopLeft_X, clampTopLeft_Y]
  refine ⟨⟨?_, ?_⟩, ?_, ?_⟩
  · split_ifs with h <;> linarith
  · split_ifs with h <;> linarith
  · intro hb hs
    split_ifs with h <;> linarith
  · intro hb hs
    split_ifs with h <;> linarith

/-! ## C13: pivot normalization round trip -/

namespace TransparentTriangle

/-- Both components of `size` are non-zero when `a != c` and `b != c`. -/
theorem destSize_ne_zero (a b c : Vector2F ℝ) (hac : a ≠ c) (hbc : b ≠ c) :
    (destSize a b c).X ≠ 0 ∧ (destSize a b c).Y ≠ 0 :=
  ⟨((distance_pos_iff a c).mpr hac).ne', ((distance_pos_iff b c).mpr hbc).ne'⟩

end TransparentTriangle

/-- C13: in the rotated branch of `RenderRightTriangle`, for every input with
`a != c` and `b != c`, the normalized pivot
`center = (rotationCenter(topLeft,b,bottomRight,a) - topLeft) / size` that is
passed to `DrawRotatedTile` satisfies
`center*size + topLeft = rotationCenter(topLeft,b,bottomRight,a)`
componentwise. -/
theorem c13_pivot_round_trip (self : TransparentTriangle) (k : ℝ) (canvas : CanvasWrapper)
    (a b c : Vector2F ℝ) (haY : a.Y ≠ c.Y) (hac : a ≠ c) (hbc : b ≠ c) :
    RenderRightTriangle self k canvas a b c =
        [ CanvasCall.SetPosition (rotatedTopLeft canvas a b c),
          CanvasCall.DrawRotatedTile (Rotator.mk 0 (destAngle a c * k) 0)
            (destSize a b c).X (destSize a b c).Y 1 1
            (self.triangleImage.GetSizeF.X - 2) (self.triangleImage.GetSizeF.Y - 2)
            ((rotatedPivot canvas a b c - rotatedTopLeft canvas a b c) / destSize a b c).X
            ((rotatedPivot canvas a b c - rotatedTopLeft canvas a b c) / destSize a b c).Y ] ∧
      ((rotatedPivot canvas a b c - rotatedTopLeft canvas a b c) / destSize a b c).X
          * (destSize a b c).X + (rotatedTopLeft canvas a b c).X
        = (rotatedPivot canvas a b c).X ∧
      ((rotatedPivot canvas a b c - rotatedTopLeft canvas a b c) / destSize a b c).Y
          * (destSize a b c).Y + (rotatedTopLeft canvas a b c).Y
        = (rotatedPivot canvas a b c).Y := by
  obtain ⟨hX, hY⟩ := destSize_ne_zero a b c hac hbc
  refine ⟨RenderRightTriangle_rotated self k canvas a b c haY, ?_, ?_⟩
  · simp only [Vector2F.div_X, Vector2F.sub_X]
    rw [div_mul_cancel₀ _ hX]
    ring
  · simp only [Vector2F.div_Y, Vector2F.sub_Y]
    rw [div_mul_cancel₀ _ hY]
    ring

/-- Witness of C13: `a = (1300,1400)`, `b = (1800,400)`, `c = (1000,1000)` on
a 1920x1080 canvas. -/
theorem c13_pivot_round_trip_witness :
    RenderRightTriangle (TransparentTriangle.mk (ImageWrapper.mk true true ⟨64, 64⟩) true) 1
        (CanvasWrapper.mk ⟨1920, 1080⟩) ⟨1300, 1400⟩ ⟨1800, 400⟩ ⟨1000, 1000⟩ =
        [ CanvasCall.SetPosition
            (rotatedTopLeft (CanvasWrapper.mk ⟨1920, 1080⟩) ⟨1300, 1400⟩ ⟨1800, 400⟩
              ⟨1000, 1000⟩),
          CanvasCall.DrawRotatedTile
            (Rotator.mk 0 (destAngle ⟨1300, 1400⟩ ⟨1000, 1000⟩ * 1) 0)
            (destSize ⟨1300, 1400⟩ ⟨1800, 400⟩ ⟨1000, 1000⟩).X
            (destSize ⟨1300, 1400⟩ ⟨1800, 400⟩ ⟨1000, 1000⟩).Y 1 1
            ((64 : ℝ) - 2) ((64 : ℝ) - 2)
            ((rotatedPivot (CanvasWrapper.mk ⟨1920, 1080⟩) ⟨1300, 1400⟩ ⟨1800, 400⟩
                ⟨1000, 1000⟩
              - rotatedTopLeft (CanvasWrapper.mk ⟨1920, 1080⟩) ⟨1300, 1400⟩ ⟨1800, 400⟩
                ⟨1000, 1000⟩)
              / destSize ⟨1300, 1400⟩ ⟨1800, 400⟩ ⟨1000, 1000⟩).X
            ((rotatedPivot (CanvasWrapper.mk ⟨1920, 1080⟩) ⟨1300, 1400⟩ ⟨1800, 400⟩
                ⟨1000, 1000⟩
              - rotatedTopLeft (CanvasWrapper.mk ⟨1920, 1080⟩) ⟨1300, 1400⟩ ⟨1800, 400⟩
                ⟨1000, 1000⟩)
              / destSize ⟨1300, 1400⟩ ⟨1800, 400⟩ ⟨1000, 1000⟩).Y ] ∧
      ((rotatedPivot (CanvasWrapper.mk ⟨1920, 1080⟩) ⟨1300, 1400⟩ ⟨1800, 400⟩ ⟨1000, 1000⟩
            - rotatedTopLeft (CanvasWrapper.mk ⟨1920, 1080⟩) ⟨1300, 1400⟩ ⟨1800, 400⟩
              ⟨1000, 1000⟩)
          / destSize ⟨1300, 1400⟩ ⟨1800, 400⟩ ⟨1000, 1000⟩).X
          * (destSize ⟨1300, 1400⟩ ⟨1800, 400⟩ ⟨1000, 1000⟩).X
          + (rotatedTopLeft (CanvasWrapper.mk ⟨1920, 1080⟩) ⟨1300, 1400⟩ ⟨1800, 400⟩
            ⟨1000, 1000⟩).X
        = (rotatedPivot (CanvasWrapper.mk ⟨1920, 1080⟩) ⟨1300, 1400⟩ ⟨1800, 400⟩
          ⟨1000, 1000⟩).X ∧
      ((rotatedPivot (CanvasWrapper.mk ⟨1920, 1080⟩) ⟨1300, 1400⟩ ⟨1800, 400⟩ ⟨1000, 1000⟩
            - rotatedTopLeft (CanvasWrapper.mk ⟨1920, 1080⟩) ⟨1300, 1400⟩ ⟨1800, 400⟩
              ⟨1000, 1000⟩)
          / destSize ⟨1300, 1400⟩ ⟨1800, 400⟩ ⟨1000, 1000⟩).Y
          * (destSize ⟨1300, 1400⟩ ⟨1800, 400⟩ ⟨1000, 1000⟩).Y
          + (rotatedTopLeft (CanvasWrapper.mk ⟨1920, 1080⟩) ⟨1300, 1400⟩ ⟨1800, 400⟩
            ⟨1000, 1000⟩).Y
        = (rotatedPivot (CanvasWrapper.mk ⟨1920, 1080⟩) ⟨1300, 1400⟩ ⟨1800, 400⟩
          ⟨1000, 1000⟩).Y :=
  c13_pivot_round_trip (TransparentTriangle.mk (ImageWrapper.mk true true ⟨64, 64⟩) true) 1
    (CanvasWrapper.mk ⟨1920, 1080⟩) ⟨1300, 1400⟩ ⟨1800, 400⟩ ⟨1000, 1000⟩
    (by norm_num)
    (by rw [ne_eq, Vector2F.eq_iff]; norm_num)
    (by rw [ne_eq, Vector2F.eq_iff]; norm_num)

/-! ## C20: no overflow, pivot at the origin corner -/

/-- C20: in the rotated branch of `RenderRightTriangle`, whenever the
tentative rectangle does not overflow the canvas
(`b.X + size.X <= canvasWidth` and `b.Y + size.Y <= canvasHeight`) and
`a != c`, `b != c`, the canvas position is set to `b`, `rotationCenter`
returns `b` through its stationary-point shortcut, and the normalized pivot
passed to `DrawRotatedTile` is exactly `(0,0)` (both components of `size`
being non-zero). -/
theorem c20_no_overflow_pivot (self : TransparentTriangle) (k : ℝ) (canvas : CanvasWrapper)
    (a b c : Vector2F ℝ) (haY : a.Y ≠ c.Y) (hac : a ≠ c) (hbc : b ≠ c)
    (hX : b.X + (destSize a b c).X ≤ canvas.GetSize.X)
    (hY : b.Y + (destSize a b c).Y ≤ canvas.GetSize.Y) :
    rotatedTopLeft canvas a b c = b ∧
      equals (rotatedTopLeft canvas a b c) b = true ∧
      rotatedPivot canvas a b c = b ∧
      ((destSize a b c).X ≠ 0 ∧ (destSize a b c).Y ≠ 0) ∧
      RenderRightTriangle self k canvas a b c =
        [ CanvasCall.SetPosition b,
          CanvasCall.DrawRotatedTile (Rotator.mk 0 (destAngle a c * k) 0)
            (destSize a b c).X (destSize a b c).Y 1 1
            (self.triangleImage.GetSizeF.X - 2) (self.triangleImage.GetSizeF.Y - 2) 0 0 ] := by
  have htl : rotatedTopLeft canvas a b c = b := clampTopLeft_of_fits _ _ _ hX hY
  have heq : equals (rotatedTopLeft canvas a b c) b = true := by
    rw [equals_iff]; exact htl
  have hp : rotatedPivot canvas a b c = b := by
    unfold rotatedPivot rotationCenter
    rw [if_pos heq]
    exact htl
  refine ⟨htl, heq, hp, destSize_ne_zero a b c hac hbc, ?_⟩
  rw [RenderRightTriangle_rotated self k canvas a b c haY, hp, htl]
  simp only [Vector2F.div_X, Vector2F.div_Y, Vector2F.sub_X, Vector2F.sub_Y, sub_self, zero_div]

/-- Witness of C20: `a = (1300,1000)`, `b = (800,0)`, `c = (500,400)` on a
1920x1080 canvas, with legs 1000 and 500. -/
theorem c20_no_overflow_pivot_witness :
    rotatedTopLeft (CanvasWrapper.mk ⟨1920, 1080⟩) ⟨1300, 1000⟩ ⟨800, 0⟩ ⟨500, 400⟩
        = ⟨800, 0⟩ ∧
      equals (rotatedTopLeft (CanvasWrapper.mk ⟨1920, 1080⟩) ⟨1300, 1000⟩ ⟨800, 0⟩
        ⟨500, 400⟩) ⟨800, 0⟩ = true ∧
      rotatedPivot (CanvasWrapper.mk ⟨1920, 1080⟩) ⟨1300, 1000⟩ ⟨800, 0⟩ ⟨500, 400⟩
        = ⟨800, 0⟩ ∧
      ((destSize ⟨1300, 1000⟩ ⟨800, 0⟩ ⟨500, 400⟩).X ≠ 0 ∧
        (destSize ⟨1300, 1000⟩ ⟨800, 0⟩ ⟨500, 400⟩).Y ≠ 0) ∧
      RenderRightTriangle (TransparentTriangle.mk (ImageWrapper.mk true true ⟨64, 64⟩) true) 1
          (CanvasWrapper.mk ⟨1920, 1080⟩) ⟨1300, 1000⟩ ⟨800, 0⟩ ⟨500, 400⟩ =
        [ CanvasCall.SetPosition ⟨800, 0⟩,
          CanvasCall.DrawRotatedTile
            (Rotator.mk 0 (destAngle ⟨1300, 1000⟩ ⟨500, 400⟩ * 1) 0)
            (destSize ⟨1300, 1000⟩ ⟨800, 0⟩ ⟨500, 400⟩).X
            (destSize ⟨1300, 1000⟩ ⟨800, 0⟩ ⟨500, 400⟩).Y 1 1
            ((64 : ℝ) - 2) ((64 : ℝ) - 2) 0 0 ] :=
  have hs : destSize ⟨1300, 1000⟩ ⟨800, 0⟩ ⟨500, 400⟩ = ⟨1000, 500⟩ := by
    have h1 : distance (Vector2F.mk (1300 : ℝ) 1000) ⟨500, 400⟩ = 1000 :=
      distance_eq_of_mul_self _ _ 1000 (by norm_num) (by norm_num)
    have h2 : distance (Vector2F.mk (800 : ℝ) 0) ⟨500, 400⟩ = 500 :=
      distance_eq_of_mul_self _ _ 500 (by norm_num) (by norm_num)
    simp only [destSize, h1, h2]
  c20_no_overflow_pivot (TransparentTriangle.mk (ImageWrapper.mk true true ⟨64, 64⟩) true) 1
    (CanvasWrapper.mk ⟨1920, 1080⟩) ⟨1300, 1000⟩ ⟨800, 0⟩ ⟨500, 400⟩
    (by norm_num)
    (by rw [ne_eq, Vector2F.eq_iff]; norm_num)
    (by rw [ne_eq, Vector2F.eq_iff]; norm_num)
    (by rw [hs]; norm_num)
    (by rw [hs]; norm_num)

/-! ## C14: intersect -/

namespace VectorUtils

variable {K : Type} [LinearOrderedField K]

theorem intersectDenominator_eq (v1 v2 w1 w2 : Vector2F K) :
    intersectDenominator v1 v2 w1 w2 = determinant (v1 - v2) (w1 - w2) := rfl

/-- When the denominator is not zero, the point that `intersect` returns lies
on both lines. -/
theorem intersect_on_lines (v1 v2 w1 w2 : Vector2F K)
    (hD : intersectDenominator v1 v2 w1 w2 ≠ 0) :
    determinant (intersect v1 v2 w1 w2 - v1) (v2 - v1) = 0 ∧
      determinant (intersect v1 v2 w1 w2 - w1) (w2 - w1) = 0 := by
  unfold intersectDenominator at hD
  simp only [intersect, hD, if_false, determinant, Vector2F.sub_X, Vector2F.sub_Y]
  constructor
  · field_simp
    ring
  · field_simp
    ring

end VectorUtils

/-- C14: `intersect(v1,v2,w1,w2)` returns the intersection of the two infinite
lines.  For every `v1, v2, w1, w2` with `determinant(v1-v2, w1-w2) != 0` the
result `r` lies on both lines (`determinant(r-v1, v2-v1) = 0` and
`determinant(r-w1, w2-w1) = 0`) and is the only such point; and for every
input with `determinant(v1-v2, w1-w2) = 0` the result is the origin
`(0,0)`. -/
theorem c14_intersect_lines {K : Type} [LinearOrderedField K] (v1 v2 w1 w2 : Vector2F K) :
    (determinant (v1 - v2) (w1 - w2) ≠ 0 →
      determinant (intersect v1 v2 w1 w2 - v1) (v2 - v1) = 0 ∧
        determinant (intersect v1 v2 w1 w2 - w1) (w2 - w1) = 0 ∧
        ∀ q : Vector2F K, determinant (q - v1) (v2 - v1) = 0 →
          determinant (q - w1) (w2 - w1) = 0 → q = intersect v1 v2 w1 w2) ∧
    (determinant (v1 - v2) (w1 - w2) = 0 → intersect v1 v2 w1 w2 = ⟨0, 0⟩) := by
  constructor
  · intro hD
    rw [← intersectDenominator_eq] at hD
    obtain ⟨h1, h2⟩ := intersect_on_lines v1 v2 w1 w2 hD
    refine ⟨h1, h2, ?_⟩
    intro q hq1 hq2
    exact (intersect_eq_of_on_lines v1 v2 w1 w2 q hD hq1 hq2).symm
  · intro hD
    rw [← intersectDenominator_eq] at hD
    exact intersect_of_denominator_eq_zero v1 v2 w1 w2 hD

/-! ## C17, C18, C19: the base of the height -/

namespace TransparentTriangle

/-- The labels `a` and `b` coincide only when the three input points do. -/
theorem renderLabels_a_eq_b_iff (p1 p2 p3 : Vector2F ℝ) :
    (renderLabels p1 p2 p3).a = (renderLabels p1 p2 p3).b ↔ p1 = p2 ∧ p2 = p3 := by
  constructor
  · intro hab
    obtain ⟨h1, h2⟩ := renderLabels_longest p1 p2 p3
    have h0 : distance (renderLabels p1 p2 p3).a (renderLabels p1 p2 p3).b = 0 :=
      (distance_eq_zero_iff _ _).mpr hab
    rw [h0] at h1 h2
    have hac : (renderLabels p1 p2 p3).a = (renderLabels p1 p2 p3).c :=
      (distance_eq_zero_iff _ _).mp (le_antisymm h1 (distance_nonneg _ _))
    rcases renderLabels_cases p1 p2 p3 with h | h | h | h | h | h <;>
      rw [h] at hab hac <;> simp only at hab hac
    · exact ⟨hac.symm, hab⟩
    · exact ⟨(hab.symm.trans hac).symm, hab.symm⟩
    · exact ⟨hab.symm.trans hac, hac.symm⟩
    · exact ⟨hac, hac.symm.trans hab⟩
    · exact ⟨hab, hab.symm.trans hac⟩
    · exact ⟨hab.symm, hac⟩
  · rintro ⟨h12, h23⟩
    rcases renderLabels_cases p1 p2 p3 with h | h | h | h | h | h <;> rw [h] <;>
      simp only [h12, h23]

/-- The denominator of `t` vanishes only when `a = b`. -/
theorem dot_self_eq_zero_iff (v w : Vector2F ℝ) : dot (w - v) (w - v) = 0 ↔ v = w := by
  simp only [dot, Vector2F.sub_X, Vector2F.sub_Y]
  rw [Vector2F.eq_iff]
  constructor
  · intro h
    constructor <;> nlinarith [mul_self_nonneg (w.X - v.X), mul_self_nonneg (w.Y - v.Y)]
  · rintro ⟨h1, h2⟩
    rw [h1, h2]; ring

/-- The parameter `t` lies in `[0, 1]` as soon as `ab` is a longest edge. -/
theorem heightParam_bounds (a b c : Vector2F ℝ)
    (h1 : distance a c ≤ distance a b) (h2 : distance b c ≤ distance a b) :
    0 ≤ heightParam a b c ∧ heightParam a b c ≤ 1 := by
  rw [distance_le_iff] at h1 h2
  have hn : 0 ≤ dot (b - a) (b - a) := by
    simp only [dot, Vector2F.sub_X, Vector2F.sub_Y]
    exact add_nonneg (mul_self_nonneg _) (mul_self_nonneg _)
  constructor
  · unfold heightParam
    apply div_nonneg _ hn
    simp only [dot, Vector2F.sub_X, Vector2F.sub_Y]
    nlinarith
  · unfold heightParam
    apply div_le_one_of_le₀ _ hn
    simp only [dot, Vector2F.sub_X, Vector2F.sub_Y]
    nlinarith

/-- With a non-zero denominator, `t` times the denominator is the
numerator. -/
theorem heightParam_mul (a b c : Vector2F ℝ) (hab : a ≠ b) :
    heightParam a b c * dot (b - a) (b - a) = dot (b - c) (b - a) := by
  unfold heightParam
  exact div_mul_cancel₀ _ (fun h => hab ((dot_self_eq_zero_iff a b).mp h))

/-- The segment from `c` to `d` is perpendicular to `ab`. -/
theorem heightBase_perpendicular (a b c : Vector2F ℝ) (hab : a ≠ b) :
    dot (c - heightBase a b c) (b - a) = 0 := by
  have ht := heightParam_mul a b c hab
  simp only [dot, heightBase, Vector2F.sub_X, Vector2F.sub_Y, Vector2F.add_X, Vector2F.add_Y,
    Vector2F.scale_X, Vector2F.scale_Y] at ht ⊢
  linear_combination ht

/-- The winding swap leaves `determinant(a-c, b-c) <= 0`. -/
theorem renderLabels_det_nonpos (p1 p2 p3 : Vector2F ℝ) :
    determinant ((renderLabels p1 p2 p3).a - (renderLabels p1 p2 p3).c)
      ((renderLabels p1 p2 p3).b - (renderLabels p1 p2 p3).c) ≤ 0 := by
  unfold renderLabels windingSwap
  split_ifs with h
  · show determinant ((relabel p1 p2 p3).b - (relabel p1 p2 p3).c)
      ((relabel p1 p2 p3).a - (relabel p1 p2 p3).c) ≤ 0
    rw [determinant_swap]
    linarith
  · exact not_lt.mp h

/-- The general case of `Render` (lines 69-75). -/
theorem Render_general (self : TransparentTriangle) (k : ℝ) (canvas : CanvasWrapper)
    (p1 p2 p3 : Vector2F ℝ) (hl : self.imageLoaded = true)
    (hnot : ¬ |dot (normalize ((renderLabels p1 p2 p3).a - (renderLabels p1 p2 p3).c))
      (normalize ((renderLabels p1 p2 p3).b - (renderLabels p1 p2 p3).c))| < FLT_EPSILON) :
    Render self k canvas p1 p2 p3 =
      RenderRightTriangle self k canvas (renderLabels p1 p2 p3).c (renderLabels p1 p2 p3).a
          (heightBase (renderLabels p1 p2 p3).a (renderLabels p1 p2 p3).b
            (renderLabels p1 p2 p3).c)
        ++ RenderRightTriangle self k canvas (renderLabels p1 p2 p3).b
          (renderLabels p1 p2 p3).c
          (heightBase (renderLabels p1 p2 p3).a (renderLabels p1 p2 p3).b
            (renderLabels p1 p2 p3).c) := by
  unfold Render
  simp only [hl, Bool.not_true, Bool.false_eq_true, if_false]
  rw [if_neg hnot]

end TransparentTriangle

/-- C17: for every triangle whose three points are not all equal, with
`(a, b, c)` as relabeled by `Render`, the denominator `dot(b-a, b-a)` of `t`
is not zero and the point `d = a*t + b*(1-t)` with
`t = dot(b-c,b-a)/dot(b-a,b-a)` is the foot of the perpendicular from `c` onto
the segment `ab`: `dot(c-d, b-a) = 0` and `0 <= t <= 1`. -/
theorem c17_height_foot (p1 p2 p3 : Vector2F ℝ) (hne : ¬ (p1 = p2 ∧ p2 = p3)) :
    dot ((renderLabels p1 p2 p3).b - (renderLabels p1 p2 p3).a)
        ((renderLabels p1 p2 p3).b - (renderLabels p1 p2 p3).a) ≠ 0 ∧
      dot ((renderLabels p1 p2 p3).c
          - heightBase (renderLabels p1 p2 p3).a (renderLabels p1 p2 p3).b
            (renderLabels p1 p2 p3).c)
        ((renderLabels p1 p2 p3).b - (renderLabels p1 p2 p3).a) = 0 ∧
      0 ≤ heightParam (renderLabels p1 p2 p3).a (renderLabels p1 p2 p3).b
        (renderLabels p1 p2 p3).c ∧
      heightParam (renderLabels p1 p2 p3).a (renderLabels p1 p2 p3).b
        (renderLabels p1 p2 p3).c ≤ 1 := by
  have hab : (renderLabels p1 p2 p3).a ≠ (renderLabels p1 p2 p3).b :=
    fun h => hne ((renderLabels_a_eq_b_iff p1 p2 p3).mp h)
  obtain ⟨h1, h2⟩ := renderLabels_longest p1 p2 p3
  obtain ⟨ht0, ht1⟩ := heightParam_bounds _ _ _ h1 h2
  exact ⟨fun h => hab ((dot_self_eq_zero_iff _ _).mp h),
    heightBase_perpendicular _ _ _ hab, ht0, ht1⟩

/-- Witness of C17: the third example of `Test`. -/
theorem c17_height_foot_witness :
    dot ((renderLabels ⟨700, 700⟩ ⟨300, 600⟩ ⟨200, 500⟩).b
          - (renderLabels ⟨700, 700⟩ ⟨300, 600⟩ ⟨200, 500⟩).a)
        ((renderLabels ⟨700, 700⟩ ⟨300, 600⟩ ⟨200, 500⟩).b
          - (renderLabels ⟨700, 700⟩ ⟨300, 600⟩ ⟨200, 500⟩).a) ≠ 0 ∧
      dot ((renderLabels ⟨700, 700⟩ ⟨300, 600⟩ ⟨200, 500⟩).c
          - heightBase (renderLabels ⟨700, 700⟩ ⟨300, 600⟩ ⟨200, 500⟩).a
            (renderLabels ⟨700, 700⟩ ⟨300, 600⟩ ⟨200, 500⟩).b
            (renderLabels ⟨700, 700⟩ ⟨300, 600⟩ ⟨200, 500⟩).c)
        ((renderLabels ⟨700, 700⟩ ⟨300, 600⟩ ⟨200, 500⟩).b
          - (renderLabels ⟨700, 700⟩ ⟨300, 600⟩ ⟨200, 500⟩).a) = 0 ∧
      0 ≤ heightParam (renderLabels ⟨700, 700⟩ ⟨300, 600⟩ ⟨200, 500⟩).a
        (renderLabels ⟨700, 700⟩ ⟨300, 600⟩ ⟨200, 500⟩).b
        (renderLabels ⟨700, 700⟩ ⟨300, 600⟩ ⟨200, 500⟩).c ∧
      heightParam (renderLabels ⟨700, 700⟩ ⟨300, 600⟩ ⟨200, 500⟩).a
        (renderLabels ⟨700, 700⟩ ⟨300, 600⟩ ⟨200, 500⟩).b
        (renderLabels ⟨700, 700⟩ ⟨300, 600⟩ ⟨200, 500⟩).c ≤ 1 :=
  c17_height_foot ⟨700, 700⟩ ⟨300, 600⟩ ⟨200, 500⟩
    (by rintro ⟨h, -⟩; rw [Vector2F.eq_iff] at h; norm_num at h)

/-- C18: in the general (decomposition) case of `Render`, for every triangle
with non-zero area, the two calls are `RenderRightTriangle(c, a, d)` and
`RenderRightTriangle(b, c, d)` and both satisfy the callee's precondition:
the right angle is at the third argument (`dot(c-d, a-d) = 0` and
`dot(b-d, c-d) = 0`) and the arguments are in the expected winding
(`determinant(c-d, a-d) <= 0` and `determinant(b-d, c-d) <= 0`). -/
theorem c18_decomposition_precondition (self : TransparentTriangle) (k : ℝ)
    (canvas : CanvasWrapper) (p1 p2 p3 : Vector2F ℝ) (hArea : triangleArea p1 p2 p3 ≠ 0) :
    (self.imageLoaded = true →
      ¬ |dot (normalize ((renderLabels p1 p2 p3).a - (renderLabels p1 p2 p3).c))
        (normalize ((renderLabels p1 p2 p3).b - (renderLabels p1 p2 p3).c))| < FLT_EPSILON →
      Render self k canvas p1 p2 p3 =
        RenderRightTriangle self k canvas (renderLabels p1 p2 p3).c (renderLabels p1 p2 p3).a
            (heightBase (renderLabels p1 p2 p3).a (renderLabels p1 p2 p3).b
              (renderLabels p1 p2 p3).c)
          ++ RenderRightTriangle self k canvas (renderLabels p1 p2 p3).b
            (renderLabels p1 p2 p3).c
            (heightBase (renderLabels p1 p2 p3).a (renderLabels p1 p2 p3).b
              (renderLabels p1 p2 p3).c)) ∧
    (dot ((renderLabels p1 p2 p3).c
          - heightBase (renderLabels p1 p2 p3).a (renderLabels p1 p2 p3).b
            (renderLabels p1 p2 p3).c)
        ((renderLabels p1 p2 p3).a
          - heightBase (renderLabels p1 p2 p3).a (renderLabels p1 p2 p3).b
            (renderLabels p1 p2 p3).c) = 0 ∧
      dot ((renderLabels p1 p2 p3).b
          - heightBase (renderLabels p1 p2 p3).a (renderLabels p1 p2 p3).b
            (renderLabels p1 p2 p3).c)
        ((renderLabels p1 p2 p3).c
          - heightBase (renderLabels p1 p2 p3).a (renderLabels p1 p2 p3).b
            (renderLabels p1 p2 p3).c) = 0) ∧
    (determinant ((renderLabels p1 p2 p3).c
          - heightBase (renderLabels p1 p2 p3).a (renderLabels p1 p2 p3).b
            (renderLabels p1 p2 p3).c)
        ((renderLabels p1 p2 p3).a
          - heightBase (renderLabels p1 p2 p3).a (renderLabels p1 p2 p3).b
            (renderLabels p1 p2 p3).c) ≤ 0 ∧
      determinant ((renderLabels p1 p2 p3).b
          - heightBase (renderLabels p1 p2 p3).a (renderLabels p1 p2 p3).b
            (renderLabels p1 p2 p3).c)
        ((renderLabels p1 p2 p3).c
          - heightBase (renderLabels p1 p2 p3).a (renderLabels p1 p2 p3).b
            (renderLabels p1 p2 p3).c) ≤ 0) := by
  have hne : ¬ (p1 = p2 ∧ p2 = p3) := by
    rintro ⟨h12, h23⟩
    apply hArea
    simp only [triangleArea, determinant, h12, h23, Vector2F.sub_X, Vector2F.sub_Y]
    simp
  have hab : (renderLabels p1 p2 p3).a ≠ (renderLabels p1 p2 p3).b :=
    fun h => hne ((renderLabels_a_eq_b_iff p1 p2 p3).mp h)
  obtain ⟨h1, h2⟩ := renderLabels_longest p1 p2 p3
  have hdet := renderLabels_det_nonpos p1 p2 p3
  refine ⟨Render_general self k canvas p1 p2 p3, ?_⟩
  generalize renderLabels p1 p2 p3 = l at *
  obtain ⟨ht0, ht1⟩ := heightParam_bounds _ _ _ h1 h2
  have hperp := heightBase_perpendicular l.a l.b l.c hab
  have ha : l.a - heightBase l.a l.b l.c
      = scale (l.a - l.b) (1 - heightParam l.a l.b l.c) := by
    rw [Vector2F.eq_iff]
    simp only [heightBase, Vector2F.sub_X, Vector2F.sub_Y, Vector2F.add_X, Vector2F.add_Y,
      Vector2F.scale_X, Vector2F.scale_Y]
    constructor <;> ring
  have hb : l.b - heightBase l.a l.b l.c
      = scale (l.b - l.a) (heightParam l.a l.b l.c) := by
    rw [Vector2F.eq_iff]
    simp only [heightBase, Vector2F.sub_X, Vector2F.sub_Y, Vector2F.add_X, Vector2F.add_Y,
      Vector2F.scale_X, Vector2F.scale_Y]
    constructor <;> ring
  have e1 : determinant (l.c - heightBase l.a l.b l.c)
      (scale (l.a - l.b) (1 - heightParam l.a l.b l.c))
      = (1 - heightParam l.a l.b l.c) * determinant (l.a - l.c) (l.b - l.c) := by
    simp only [heightBase, determinant, Vector2F.sub_X, Vector2F.sub_Y, Vector2F.add_X,
      Vector2F.add_Y, Vector2F.scale_X, Vector2F.scale_Y]
    ring
  have e2 : determinant (scale (l.b - l.a) (heightParam l.a l.b l.c))
      (l.c - heightBase l.a l.b l.c)
      = heightParam l.a l.b l.c * determinant (l.a - l.c) (l.b - l.c) := by
    simp only [heightBase, determinant, Vector2F.sub_X, Vector2F.sub_Y, Vector2F.add_X,
      Vector2F.add_Y, Vector2F.scale_X, Vector2F.scale_Y]
    ring
  refine ⟨⟨?_, ?_⟩, ⟨?_, ?_⟩⟩
  · rw [ha]
    simp only [dot, Vector2F.sub_X, Vector2F.sub_Y, Vector2F.scale_X, Vector2F.scale_Y] at hperp ⊢
    linear_combination (-(1 - heightParam l.a l.b l.c)) * hperp
  · rw [hb]
    simp only [dot, Vector2F.sub_X, Vector2F.sub_Y, Vector2F.scale_X, Vector2F.scale_Y] at hperp ⊢
    linear_combination (heightParam l.a l.b l.c) * hperp
  · rw [ha, e1]
    exact mul_nonpos_of_nonneg_of_nonpos (sub_nonneg.mpr ht1) hdet
  · rw [hb, e2]
    exact mul_nonpos_of_nonneg_of_nonpos ht0 hdet

/-- Witness of C18: the third example of `Test`, `(700,700), (300,600),
(200,500)`. -/
theorem c18_decomposition_precondition_witness :
    ((TransparentTriangle.mk (ImageWrapper.mk true true ⟨64, 64⟩) true).imageLoaded = true →
      ¬ |dot (normalize ((renderLabels ⟨700, 700⟩ ⟨300, 600⟩ ⟨200, 500⟩).a - (renderLabels ⟨700, 700⟩ ⟨300, 600⟩ ⟨200, 500⟩).c))
        (normalize ((renderLabels ⟨700, 700⟩ ⟨300, 600⟩ ⟨200, 500⟩).b - (renderLabels ⟨700, 700⟩ ⟨300, 600⟩ ⟨200, 500⟩).c))| < FLT_EPSILON →
      Render (TransparentTriangle.mk (ImageWrapper.mk true true ⟨64, 64⟩) true) 1
          (CanvasWrapper.mk ⟨1920, 1080⟩) ⟨700, 700⟩ ⟨300, 600⟩ ⟨200, 500⟩ =
        RenderRightTriangle (TransparentTriangle.mk (ImageWrapper.mk true true ⟨64, 64⟩) true) 1
            (CanvasWrapper.mk ⟨1920, 1080⟩)
            (renderLabels ⟨700, 700⟩ ⟨300, 600⟩ ⟨200, 500⟩).c (renderLabels ⟨700, 700⟩ ⟨300, 600⟩ ⟨200, 500⟩).a
            (heightBase (renderLabels ⟨700, 700⟩ ⟨300, 600⟩ ⟨200, 500⟩).a (renderLabels ⟨700, 700⟩ ⟨300, 600⟩ ⟨200, 500⟩).b
              (renderLabels ⟨700, 700⟩ ⟨300, 600⟩ ⟨200, 500⟩).c)
          ++ RenderRightTriangle (TransparentTriangle.mk (ImageWrapper.mk true true ⟨64, 64⟩) true) 1
            (CanvasWrapper.mk ⟨1920, 1080⟩)
            (renderLabels ⟨700, 700⟩ ⟨300, 600⟩ ⟨200, 500⟩).b
            (renderLabels ⟨700, 700⟩ ⟨300, 600⟩ ⟨200, 500⟩).c
            (heightBase (renderLabels ⟨700, 700⟩ ⟨300, 600⟩ ⟨200, 500⟩).a (renderLabels ⟨700, 700⟩ ⟨300, 600⟩ ⟨200, 500⟩).b
              (renderLabels ⟨700, 700⟩ ⟨300, 600⟩ ⟨200, 500⟩).c)) ∧
    (dot ((renderLabels ⟨700, 700⟩ ⟨300, 600⟩ ⟨200, 500⟩).c
          - heightBase (renderLabels ⟨700, 700⟩ ⟨300, 600⟩ ⟨200, 500⟩).a (renderLabels ⟨700, 700⟩ ⟨300, 600⟩ ⟨200, 500⟩).b
            (renderLabels ⟨700, 700⟩ ⟨300, 600⟩ ⟨200, 500⟩).c)
        ((renderLabels ⟨700, 700⟩ ⟨300, 600⟩ ⟨200, 500⟩).a
          - heightBase (renderLabels ⟨700, 700⟩ ⟨300, 600⟩ ⟨200, 500⟩).a (renderLabels ⟨700, 700⟩ ⟨300, 600⟩ ⟨200, 500⟩).b
            (renderLabels ⟨700, 700⟩ ⟨300, 600⟩ ⟨200, 500⟩).c) = 0 ∧
      dot ((renderLabels ⟨700, 700⟩ ⟨300, 600⟩ ⟨200, 500⟩).b
          - heightBase (renderLabels ⟨700, 700⟩ ⟨300, 600⟩ ⟨200, 500⟩).a (renderLabels ⟨700, 700⟩ ⟨300, 600⟩ ⟨200, 500⟩).b
            (renderLabels ⟨700, 700⟩ ⟨300, 600⟩ ⟨200, 500⟩).c)
        ((renderLabels ⟨700, 700⟩ ⟨300, 600⟩ ⟨200, 500⟩).c
          - heightBase (renderLabels ⟨700, 700⟩ ⟨300, 600⟩ ⟨200, 500⟩).a (renderLabels ⟨700, 700⟩ ⟨300, 600⟩ ⟨200, 500⟩).b
            (renderLabels ⟨700, 700⟩ ⟨300, 600⟩ ⟨200, 500⟩).c) = 0) ∧
    (determinant ((renderLabels ⟨700, 700⟩ ⟨300, 600⟩ ⟨200, 500⟩).c
          - heightBase (renderLabels ⟨700, 700⟩ ⟨300, 600⟩ ⟨200, 500⟩).a (renderLabels ⟨700, 700⟩ ⟨300, 600⟩ ⟨200, 500⟩).b
            (renderLabels ⟨700, 700⟩ ⟨300, 600⟩ ⟨200, 500⟩).c)
        ((renderLabels ⟨700, 700⟩ ⟨300, 600⟩ ⟨200, 500⟩).a
          - heightBase (renderLabels ⟨700, 700⟩ ⟨300, 600⟩ ⟨200, 500⟩).a (renderLabels ⟨700, 700⟩ ⟨300, 600⟩ ⟨200, 500⟩).b
            (renderLabels ⟨700, 700⟩ ⟨300, 600⟩ ⟨200, 500⟩).c) ≤ 0 ∧
      determinant ((renderLabels ⟨700, 700⟩ ⟨300, 600⟩ ⟨200, 500⟩).b
          - heightBase (renderLabels ⟨700, 700⟩ ⟨300, 600⟩ ⟨200, 500⟩).a (renderLabels ⟨700, 700⟩ ⟨300, 600⟩ ⟨200, 500⟩).b
            (renderLabels ⟨700, 700⟩ ⟨300, 600⟩ ⟨200, 500⟩).c)
        ((renderLabels ⟨700, 700⟩ ⟨300, 600⟩ ⟨200, 500⟩).c
          - heightBase (renderLabels ⟨700, 700⟩ ⟨300, 600⟩ ⟨200, 500⟩).a (renderLabels ⟨700, 700⟩ ⟨300, 600⟩ ⟨200, 500⟩).b
            (renderLabels ⟨700, 700⟩ ⟨300, 600⟩ ⟨200, 500⟩).c) ≤ 0) :=
  c18_decomposition_precondition (TransparentTriangle.mk (ImageWrapper.mk true true ⟨64, 64⟩) true) 1
    (CanvasWrapper.mk ⟨1920, 1080⟩) ⟨700, 700⟩ ⟨300, 600⟩ ⟨200, 500⟩
    (by norm_num [triangleArea, determinant])

/-- C19 (as stated, refuted): the three colinear points `(0,0), (1,0), (2,0)`
form a zero-area triangle, yet for the relabeled `(a, b, c)` the denominator
`dot(b-a, b-a)` of `t` is not zero. -/
theorem c19_colinear_counterexample :
    triangleArea (Vector2F.mk (0 : ℝ) 0) ⟨1, 0⟩ ⟨2, 0⟩ = 0 ∧
      dot ((renderLabels ⟨0, 0⟩ ⟨1, 0⟩ ⟨2, 0⟩).b - (renderLabels ⟨0, 0⟩ ⟨1, 0⟩ ⟨2, 0⟩).a)
        ((renderLabels ⟨0, 0⟩ ⟨1, 0⟩ ⟨2, 0⟩).b - (renderLabels ⟨0, 0⟩ ⟨1, 0⟩ ⟨2, 0⟩).a) ≠ 0 := by
  constructor
  · norm_num [triangleArea, determinant]
  · intro h
    have h12 := ((renderLabels_a_eq_b_iff _ _ _).mp ((dot_self_eq_zero_iff _ _).mp h)).1
    rw [Vector2F.eq_iff] at h12
    norm_num at h12

/-- C19 (amended): the relabeled `(a, b, c)` in `Render` has
`dot(b-a, b-a) == 0`, so that the computation of `t` divides by zero, exactly
when the three input points are equal (a zero-area triangle); for every other
input, colinear points included, `dot(b-a, b-a) != 0`. -/
theorem c19_zero_denominator (p1 p2 p3 : Vector2F ℝ) :
    (dot ((renderLabels p1 p2 p3).b - (renderLabels p1 p2 p3).a)
        ((renderLabels p1 p2 p3).b - (renderLabels p1 p2 p3).a) = 0 ↔ p1 = p2 ∧ p2 = p3) ∧
      (p1 = p2 ∧ p2 = p3 → triangleArea p1 p2 p3 = 0) := by
  constructor
  · rw [dot_self_eq_zero_iff]
    exact renderLabels_a_eq_b_iff p1 p2 p3
  · rintro ⟨h12, h23⟩
    simp only [triangleArea, determinant, h12, h23, Vector2F.sub_X, Vector2F.sub_Y]
    simp

/-! ## The order of the points in exact arithmetic -/

namespace TransparentTriangle

theorem renderLabels_of_first_longest (p1 p2 p3 : Vector2F ℝ)
    (h2 : distance p3 p1 < distance p2 p3) (h3 : distance p1 p2 < distance p2 p3) :
    renderLabels p1 p2 p3 = windingSwap { a := p2, b := p3, c := p1 } := by
  unfold renderLabels
  rw [relabel_eq, if_pos ⟨h2.le, h3.le⟩]

theorem renderLabels_of_second_longest (p1 p2 p3 : Vector2F ℝ)
    (h1 : distance p2 p3 < distance p3 p1) (h3 : distance p1 p2 < distance p3 p1) :
    renderLabels p1 p2 p3 = windingSwap { a := p3, b := p1, c := p2 } := by
  unfold renderLabels
  rw [relabel_eq, if_neg (fun h => absurd h.1 (not_le.mpr h1)), if_pos ⟨h1.le, h3.le⟩]

theorem renderLabels_of_third_longest (p1 p2 p3 : Vector2F ℝ)
    (h1 : distance p2 p3 < distance p1 p2) (h2 : distance p3 p1 < distance p1 p2) :
    renderLabels p1 p2 p3 = windingSwap { a := p1, b := p2, c := p3 } := by
  unfold renderLabels
  rw [relabel_eq, if_neg (fun h => absurd h.2 (not_le.mpr h1)),
    if_neg (fun h => absurd h.2 (not_le.mpr h2))]

/-- For a triangle of non-zero area the winding swap gives the same labels
whichever of `a`, `b` comes first. -/
theorem windingSwap_flip (a b c : Vector2F ℝ) (h : determinant (a - c) (b - c) ≠ 0) :
    windingSwap { a := b, b := a, c := c } = windingSwap { a := a, b := b, c := c } := by
  unfold windingSwap
  simp only [determinant_swap (a - c) (b - c)]
  rcases lt_or_gt_of_ne h with h1 | h1
  · rw [if_pos (by linarith), if_neg (by linarith)]
  · rw [if_neg (by linarith), if_pos (by linarith)]

/-- When `xy` is strictly the longest edge and the area is not zero, every
order of the three points is relabeled to the same `(a, b, c)`. -/
theorem renderLabels_canonical (x y z : Vector2F ℝ)
    (hxz : distance x z < distance x y) (hyz : distance y z < distance x y)
    (hdet : determinant (x - z) (y - z) ≠ 0)
    (q : Vector2F ℝ × Vector2F ℝ × Vector2F ℝ) (hq : q ∈ permutations3 x y z) :
    renderLabels q.1 q.2.1 q.2.2 = windingSwap { a := x, b := y, c := z } := by
  have hzx : distance z x < distance x y := by rw [distance_comm z x]; exact hxz
  have hzy : distance z y < distance x y := by rw [distance_comm z y]; exact hyz
  have hyx := distance_comm y x
  simp only [permutations3, List.mem_cons, List.mem_singleton, List.not_mem_nil, or_false] at hq
  rcases hq with h | h | h | h | h | h <;> rw [h] <;> simp only
  · exact renderLabels_of_third_longest x y z hyz hzx
  · rw [renderLabels_of_second_longest x z y (by rw [hyx]; exact hzy) (by rw [hyx]; exact hxz)]
    exact windingSwap_flip x y z hdet
  · rw [renderLabels_of_third_longest y x z (by rw [hyx]; exact hxz) (by rw [hyx]; exact hzy)]
    exact windingSwap_flip x y z hdet
  · exact renderLabels_of_second_longest y z x hzx hyz
  · exact renderLabels_of_first_longest z x y hyz hzx
  · rw [renderLabels_of_first_longest z y x (by rw [hyx]; exact hxz) (by rw [hyx]; exact hzy)]
    exact windingSwap_flip x y z hdet

/-- With a loaded image `Render` depends on the points only through the
labels `(a, b, c)`. -/
theorem Render_congr_labels (self : TransparentTriangle) (k : ℝ) (canvas : CanvasWrapper)
    (q1 q2 q3 p1 p2 p3 : Vector2F ℝ) (hl : self.imageLoaded = true)
    (h : renderLabels q1 q2 q3 = renderLabels p1 p2 p3) :
    Render self k canvas q1 q2 q3 = Render self k canvas p1 p2 p3 := by
  unfold Render
  simp only [hl, Bool.not_true, Bool.false_eq_true, if_false, h]

/-- All orders of a triangle with a unique longest edge and non-zero area
get the labels of the given order. -/
theorem renderLabels_perm_invariant (p1 p2 p3 : Vector2F ℝ)
    (hArea : triangleArea p1 p2 p3 ≠ 0) (hU : UniqueLongestEdge p1 p2 p3)
    (q : Vector2F ℝ × Vector2F ℝ × Vector2F ℝ) (hq : q ∈ permutations3 p1 p2 p3) :
    renderLabels q.1 q.2.1 q.2.2 = renderLabels p1 p2 p3 := by
  have hD : determinant (p2 - p1) (p3 - p1) ≠ 0 := by
    intro h0
    apply hArea
    simp only [triangleArea, h0, abs_zero, zero_div]
  simp only [determinant, Vector2F.sub_X, Vector2F.sub_Y] at hD
  simp only [permutations3, List.mem_cons, List.mem_singleton, List.not_mem_nil, or_false] at hq
  rcases hU with ⟨h2, h3⟩ | ⟨h1, h3⟩ | ⟨h1, h2⟩
  · have hdet : determinant (p2 - p1) (p3 - p1) ≠ 0 := by
      simp only [determinant, Vector2F.sub_X, Vector2F.sub_Y]; exact hD
    have hp := renderLabels_canonical p2 p3 p1 (by rw [distance_comm p2 p1]; exact h3) h2 hdet
    rw [hp q (by simp only [permutations3, List.mem_cons, List.mem_singleton,
        List.not_mem_nil, or_false]; tauto),
      hp (p1, p2, p3) (by simp [permutations3])]
  · have hdet : determinant (p3 - p2) (p1 - p2) ≠ 0 := by
      simp only [determinant, Vector2F.sub_X, Vector2F.sub_Y]
      intro h0; apply hD; linear_combination h0
    have hp := renderLabels_canonical p3 p1 p2 (by rw [distance_comm p3 p2]; exact h1) h3 hdet
    rw [hp q (by simp only [permutations3, List.mem_cons, List.mem_singleton,
        List.not_mem_nil, or_false]; tauto),
      hp (p1, p2, p3) (by simp [permutations3])]
  · have hdet : determinant (p1 - p3) (p2 - p3) ≠ 0 := by
      simp only [determinant, Vector2F.sub_X, Vector2F.sub_Y]
      intro h0; apply hD; linear_combination h0
    have hp := renderLabels_canonical p1 p2 p3 (by rw [distance_comm p1 p3]; exact h2) h1 hdet
    rw [hp q (by simp only [permutations3, List.mem_cons, List.mem_singleton,
        List.not_mem_nil, or_false]; tauto),
      hp (p1, p2, p3) (by simp [permutations3])]

end TransparentTriangle

/-! ## The axis-aligned branch and the first example of `Test` -/

section AxisAligned

open TransparentTriangle

/-- In the axis-aligned branch the angle is 0 when `a` is not to the left of
`c`, and `π` when it is. -/
theorem destAngle_of_axis_aligned (a c : Vector2F ℝ) (haY : a.Y = c.Y) :
    (c.X ≤ a.X → destAngle a c = 0) ∧ (a.X < c.X → destAngle a c = Real.pi) := by
  have hz : (Complex.mk (a - c).X (a - c).Y) = ((a.X - c.X : ℝ) : ℂ) := by
    apply Complex.ext
    · simp
    · simp [haY]
  simp only [destAngle, atan2, hz]
  constructor
  · intro h
    exact Complex.arg_ofReal_of_nonneg (sub_nonneg.mpr h)
  · intro h
    exact Complex.arg_ofReal_of_neg (sub_neg.mpr h)

theorem example1_renderLabels :
    renderLabels ⟨200, 200⟩ ⟨500, 200⟩ ⟨500, 400⟩
      = { a := ⟨200, 200⟩, b := ⟨500, 400⟩, c := ⟨500, 200⟩ } := by
  have hr : RightAngleAt (Vector2F.mk (500 : ℝ) 200) ⟨500, 400⟩ ⟨200, 200⟩ := by
    refine ⟨?_, ?_, ?_⟩
    · norm_num [dot]
    · rw [ne_eq, Vector2F.eq_iff]; norm_num
    · rw [ne_eq, Vector2F.eq_iff]; norm_num
  unfold renderLabels windingSwap
  rw [relabel_rightAngle_p2 _ _ _ hr, if_pos]
  norm_num [determinant]

theorem example1_destSize :
    destSize ⟨200, 200⟩ ⟨500, 400⟩ ⟨500, 200⟩ = ⟨300, 200⟩ := by
  have h1 : distance (Vector2F.mk (200 : ℝ) 200) ⟨500, 200⟩ = 300 :=
    distance_eq_of_mul_self _ _ 300 (by norm_num) (by norm_num)
  have h2 : distance (Vector2F.mk (500 : ℝ) 400) ⟨500, 200⟩ = 200 :=
    distance_eq_of_mul_self _ _ 200 (by norm_num) (by norm_num)
  simp only [destSize, h1, h2]

theorem example1_destAngle : destAngle ⟨200, 200⟩ ⟨500, 200⟩ = Real.pi :=
  (destAngle_of_axis_aligned ⟨200, 200⟩ ⟨500, 200⟩ rfl).2 (by norm_num)

/-- The canvas calls of the first example of `Test`. -/
theorem example1_Render (self : TransparentTriangle) (k : ℝ) (canvas : CanvasWrapper)
    (hl : self.imageLoaded = true) :
    Render self k canvas ⟨200, 200⟩ ⟨500, 200⟩ ⟨500, 400⟩ =
      [ CanvasCall.SetPosition ⟨500, 400⟩,
        CanvasCall.DrawRotatedTile
          (Rotator.mk 0 (destAngle ⟨200, 200⟩ ⟨500, 200⟩ * k) 0) 300 200 1 1
          (self.triangleImage.GetSizeF.X - 2) (self.triangleImage.GetSizeF.Y - 2) 0 0 ] := by
  have hdot : dot
      ((renderLabels ⟨200, 200⟩ ⟨500, 200⟩ ⟨500, 400⟩).a
        - (renderLabels ⟨200, 200⟩ ⟨500, 200⟩ ⟨500, 400⟩).c)
      ((renderLabels ⟨200, 200⟩ ⟨500, 200⟩ ⟨500, 400⟩).b
        - (renderLabels ⟨200, 200⟩ ⟨500, 200⟩ ⟨500, 400⟩).c) = 0 := by
    rw [example1_renderLabels]
    norm_num [dot]
  rw [Render_of_perpendicular self k canvas _ _ _ hl hdot, example1_renderLabels]
  show RenderRightTriangle self k canvas ⟨200, 200⟩ ⟨500, 400⟩ ⟨500, 200⟩ = _
  rw [RenderRightTriangle_axis self k canvas ⟨200, 200⟩ ⟨500, 400⟩ ⟨500, 200⟩ rfl,
    example1_destSize]

end AxisAligned

/-! ## C12: the half-turn in the axis-aligned branch -/

section HalfTurnExample

open TransparentTriangle

theorem example_destSize_flat :
    destSize ⟨1500, 800⟩ ⟨1900, 1000⟩ ⟨1900, 800⟩ = ⟨400, 200⟩ := by
  have h1 : distance (Vector2F.mk (1500 : ℝ) 800) ⟨1900, 800⟩ = 400 :=
    distance_eq_of_mul_self _ _ 400 (by norm_num) (by norm_num)
  have h2 : distance (Vector2F.mk (1900 : ℝ) 1000) ⟨1900, 800⟩ = 200 :=
    distance_eq_of_mul_self _ _ 200 (by norm_num) (by norm_num)
  simp only [destSize, h1, h2]

theorem example_destAngle_flat : destAngle ⟨1500, 800⟩ ⟨1900, 800⟩ = Real.pi :=
  (destAngle_of_axis_aligned ⟨1500, 800⟩ ⟨1900, 800⟩ rfl).2 (by norm_num)

end HalfTurnExample

/-- C12 (code evaluated at the failing inputs).  For the first example of
`Test`, `Render(canvas, (200,200), (500,200), (500,400))`, the labels are
`a = (200,200)`, `b = (500,400)`, `c = (500,200)`: `a.Y == c.Y`, so
`RenderRightTriangle` takes the branch that line 88 comments `no rotation`,
but `a` is to the left of `c` and the angle
`atan2((a-c).Y, (a-c).X) = atan2(0, -300)` is `π`, not 0: the rotator passed to
`DrawRotatedTile` has yaw `π * CONST_RadToUnrRot`.  For the right triangle
`a = (1500,800)`, `b = (1900,1000)`, `c = (1900,800)` on a 1920x1080 canvas
the same branch draws the half-turn from the position `b` with size
`(400,200)`, a rectangle that passes the right edge of the canvas, which the
rotated branch would have clamped. -/
theorem c12_half_turn_in_axis_branch :
    ((renderLabels ⟨200, 200⟩ ⟨500, 200⟩ ⟨500, 400⟩).a.Y
        = (renderLabels ⟨200, 200⟩ ⟨500, 200⟩ ⟨500, 400⟩).c.Y ∧
      destAngle (renderLabels ⟨200, 200⟩ ⟨500, 200⟩ ⟨500, 400⟩).a
        (renderLabels ⟨200, 200⟩ ⟨500, 200⟩ ⟨500, 400⟩).c = Real.pi ∧
      destAngle (renderLabels ⟨200, 200⟩ ⟨500, 200⟩ ⟨500, 400⟩).a
        (renderLabels ⟨200, 200⟩ ⟨500, 200⟩ ⟨500, 400⟩).c ≠ 0 ∧
      ∀ k : ℝ,
        Render (TransparentTriangle.mk (ImageWrapper.mk true true ⟨64, 64⟩) true) k
            (CanvasWrapper.mk ⟨1920, 1080⟩) ⟨200, 200⟩ ⟨500, 200⟩ ⟨500, 400⟩ =
          [ CanvasCall.SetPosition ⟨500, 400⟩,
            CanvasCall.DrawRotatedTile (Rotator.mk 0 (Real.pi * k) 0) 300 200 1 1
              ((64 : ℝ) - 2) ((64 : ℝ) - 2) 0 0 ]) ∧
    (dot ((Vector2F.mk (1500 : ℝ) 800) - ⟨1900, 800⟩) (⟨1900, 1000⟩ - ⟨1900, 800⟩) = 0 ∧
      determinant ((Vector2F.mk (1500 : ℝ) 800) - ⟨1900, 800⟩)
        (⟨1900, 1000⟩ - ⟨1900, 800⟩) < 0 ∧
      (Vector2F.mk (1500 : ℝ) 800).Y = (Vector2F.mk (1900 : ℝ) 800).Y ∧
      (∀ k : ℝ,
        RenderRightTriangle (TransparentTriangle.mk (ImageWrapper.mk true true ⟨64, 64⟩) true) k
            (CanvasWrapper.mk ⟨1920, 1080⟩) ⟨1500, 800⟩ ⟨1900, 1000⟩ ⟨1900, 800⟩ =
          [ CanvasCall.SetPosition ⟨1900, 1000⟩,
            CanvasCall.DrawRotatedTile (Rotator.mk 0 (Real.pi * k) 0) 400 200 1 1
              ((64 : ℝ) - 2) ((64 : ℝ) - 2) 0 0 ]) ∧
      (CanvasWrapper.mk ⟨1920, 1080⟩).GetSize.X
        < (Vector2F.mk (1900 : ℝ) 1000).X
          + (destSize ⟨1500, 800⟩ ⟨1900, 1000⟩ ⟨1900, 800⟩).X) := by
  refine ⟨?_, ?_, ?_, rfl, ?_, ?_⟩
  · rw [example1_renderLabels]
    refine ⟨rfl, example1_destAngle, ?_, ?_⟩
    · show destAngle ⟨200, 200⟩ ⟨500, 200⟩ ≠ 0
      rw [example1_destAngle]
      exact Real.pi_ne_zero
    · intro k
      rw [example1_Render _ k _ rfl, example1_destAngle]
  · norm_num [dot]
  · norm_num [determinant]
  · intro k
    rw [RenderRightTriangle_axis _ k _ ⟨1500, 800⟩ ⟨1900, 1000⟩ ⟨1900, 800⟩ rfl,
      example_destSize_flat, example_destAngle_flat]
  · rw [example_destSize_flat]
    norm_num

/-! ## C16: example scenario -/

/-- C16: example scenario.  `Render(canvas, (200,200), (500,200), (500,400))`
with a loaded image takes the right-angle shortcut with `c = (500,200)` and
issues exactly one `DrawRotatedTile` call, in the axis-aligned branch
(`a.Y == c.Y`), with destination size `(300,200)`, pivot `(0,0)`, and the
canvas position set to `b = (500,400)`. -/
theorem c16_example_scenario (self : TransparentTriangle) (k : ℝ) (canvas : CanvasWrapper)
    (hl : self.imageLoaded = true) :
    (renderLabels ⟨200, 200⟩ ⟨500, 200⟩ ⟨500, 400⟩).c = ⟨500, 200⟩ ∧
      (renderLabels ⟨200, 200⟩ ⟨500, 200⟩ ⟨500, 400⟩).b = ⟨500, 400⟩ ∧
      (renderLabels ⟨200, 200⟩ ⟨500, 200⟩ ⟨500, 400⟩).a.Y
        = (renderLabels ⟨200, 200⟩ ⟨500, 200⟩ ⟨500, 400⟩).c.Y ∧
      Render self k canvas ⟨200, 200⟩ ⟨500, 200⟩ ⟨500, 400⟩ =
        RenderRightTriangle self k canvas (renderLabels ⟨200, 200⟩ ⟨500, 200⟩ ⟨500, 400⟩).a
          (renderLabels ⟨200, 200⟩ ⟨500, 200⟩ ⟨500, 400⟩).b
          (renderLabels ⟨200, 200⟩ ⟨500, 200⟩ ⟨500, 400⟩).c ∧
      Render self k canvas ⟨200, 200⟩ ⟨500, 200⟩ ⟨500, 400⟩ =
        [ CanvasCall.SetPosition ⟨500, 400⟩,
          CanvasCall.DrawRotatedTile
            (Rotator.mk 0 (destAngle ⟨200, 200⟩ ⟨500, 200⟩ * k) 0) 300 200 1 1
            (self.triangleImage.GetSizeF.X - 2) (self.triangleImage.GetSizeF.Y - 2) 0 0 ] ∧
      (Render self k canvas ⟨200, 200⟩ ⟨500, 200⟩ ⟨500, 400⟩).countP
        CanvasCall.isDrawRotatedTile = 1 := by
  have hR := example1_Render self k canvas hl
  have hdot : dot
      ((renderLabels ⟨200, 200⟩ ⟨500, 200⟩ ⟨500, 400⟩).a
        - (renderLabels ⟨200, 200⟩ ⟨500, 200⟩ ⟨500, 400⟩).c)
      ((renderLabels ⟨200, 200⟩ ⟨500, 200⟩ ⟨500, 400⟩).b
        - (renderLabels ⟨200, 200⟩ ⟨500, 200⟩ ⟨500, 400⟩).c) = 0 := by
    rw [example1_renderLabels]
    norm_num [dot]
  refine ⟨?_, ?_, ?_, TransparentTriangle.Render_of_perpendicular self k canvas _ _ _ hl hdot,
    hR, ?_⟩
  · rw [example1_renderLabels]
  · rw [example1_renderLabels]
  · rw [example1_renderLabels]
  · rw [hR]; rfl

/-- Witness of C16: a renderer with a loaded 64x64 image on a 1920x1080
canvas. -/
theorem c16_example_scenario_witness :
    (renderLabels ⟨200, 200⟩ ⟨500, 200⟩ ⟨500, 400⟩).c = ⟨500, 200⟩ ∧
      (renderLabels ⟨200, 200⟩ ⟨500, 200⟩ ⟨500, 400⟩).b = ⟨500, 400⟩ ∧
      (renderLabels ⟨200, 200⟩ ⟨500, 200⟩ ⟨500, 400⟩).a.Y
        = (renderLabels ⟨200, 200⟩ ⟨500, 200⟩ ⟨500, 400⟩).c.Y ∧
      Render (TransparentTriangle.new (ImageWrapper.mk true true ⟨64, 64⟩)) 1
          (CanvasWrapper.mk ⟨1920, 1080⟩) ⟨200, 200⟩ ⟨500, 200⟩ ⟨500, 400⟩ =
        RenderRightTriangle (TransparentTriangle.new (ImageWrapper.mk true true ⟨64, 64⟩)) 1
          (CanvasWrapper.mk ⟨1920, 1080⟩)
          (renderLabels ⟨200, 200⟩ ⟨500, 200⟩ ⟨500, 400⟩).a
          (renderLabels ⟨200, 200⟩ ⟨500, 200⟩ ⟨500, 400⟩).b
          (renderLabels ⟨200, 200⟩ ⟨500, 200⟩ ⟨500, 400⟩).c ∧
      Render (TransparentTriangle.new (ImageWrapper.mk true true ⟨64, 64⟩)) 1
          (CanvasWrapper.mk ⟨1920, 1080⟩) ⟨200, 200⟩ ⟨500, 200⟩ ⟨500, 400⟩ =
        [ CanvasCall.SetPosition ⟨500, 400⟩,
          CanvasCall.DrawRotatedTile
            (Rotator.mk 0 (destAngle ⟨200, 200⟩ ⟨500, 200⟩ * 1) 0) 300 200 1 1
            ((TransparentTriangle.new (ImageWrapper.mk true true ⟨64, 64⟩)).triangleImage.GetSizeF.X
              - 2)
            ((TransparentTriangle.new (ImageWrapper.mk true true ⟨64, 64⟩)).triangleImage.GetSizeF.Y
              - 2) 0 0 ] ∧
      (Render (TransparentTriangle.new (ImageWrapper.mk true true ⟨64, 64⟩)) 1
          (CanvasWrapper.mk ⟨1920, 1080⟩) ⟨200, 200⟩ ⟨500, 200⟩ ⟨500, 400⟩).countP
        CanvasCall.isDrawRotatedTile = 1 :=
  c16_example_scenario (TransparentTriangle.new (ImageWrapper.mk true true ⟨64, 64⟩)) 1
    (CanvasWrapper.mk ⟨1920, 1080⟩) rfl

/-! ## C1, C15: the relabeling on rounded lengths (binary32) -/

namespace Binary32

theorem roundHalfEven_eq (y : ℝ) (n : ℤ) (h1 : (n : ℝ) - 1 / 2 < y) (h2 : y < (n : ℝ) + 1 / 2) :
    roundHalfEven y = n := by
  unfold roundHalfEven
  rcases le_or_lt (n : ℝ) y with hle | hlt
  · have hf : ⌊y⌋ = n := Int.floor_eq_iff.mpr ⟨hle, by linarith⟩
    rw [hf, if_pos (by linarith)]
  · have hf : ⌊y⌋ = n - 1 :=
      Int.floor_eq_iff.mpr ⟨by push_cast; linarith, by push_cast; linarith⟩
    rw [hf, if_neg (by push_cast; linarith), if_pos (by push_cast; linarith)]
    ring

theorem log_abs_eq (x : ℝ) (e : ℤ) (hlo : (2 : ℝ) ^ e ≤ |x|) (hhi : |x| < (2 : ℝ) ^ (e + 1)) :
    Int.log 2 |x| = e := by
  have hpos : 0 < |x| := lt_of_lt_of_le (by positivity) hlo
  apply le_antisymm
  · have := (@Int.lt_zpow_iff_log_lt ℝ _ _ 2 (by norm_num) _ _ hpos).mp (by exact_mod_cast hhi)
    omega
  · exact (@Int.zpow_le_iff_le_log ℝ _ _ 2 (by norm_num) _ _ hpos).mp (by exact_mod_cast hlo)

/-- Rounding a real whose binade and nearest multiple of the unit in the last
place are known. -/
theorem binary32Round_eq (x : ℝ) (e n : ℤ) (hlo : (2 : ℝ) ^ e ≤ |x|)
    (hhi : |x| < (2 : ℝ) ^ (e + 1)) (h1 : (n : ℝ) - 1 / 2 < x / (2 : ℝ) ^ (e - 23))
    (h2 : x / (2 : ℝ) ^ (e - 23) < (n : ℝ) + 1 / 2) :
    binary32Round x = n * (2 : ℝ) ^ (e - 23) := by
  have hx : x ≠ 0 := by
    intro h
    rw [h, abs_zero] at hlo
    exact absurd hlo (not_le.mpr (by positivity))
  unfold binary32Round
  rw [if_neg hx]
  simp only [log_abs_eq x e hlo hhi]
  rw [roundHalfEven_eq _ n h1 h2]

theorem binary32Round_pos (x v : ℝ) (e n : ℤ) (hlo : (2 : ℝ) ^ e ≤ x)
    (hhi : x < (2 : ℝ) ^ (e + 1)) (h1 : (n : ℝ) - 1 / 2 < x / (2 : ℝ) ^ (e - 23))
    (h2 : x / (2 : ℝ) ^ (e - 23) < (n : ℝ) + 1 / 2) (hv : (n : ℝ) * (2 : ℝ) ^ (e - 23) = v) :
    binary32Round x = v := by
  have hx : 0 < x := lt_of_lt_of_le (by positivity) hlo
  rw [← hv]
  apply binary32Round_eq x e n
  · rw [abs_of_pos hx]; exact hlo
  · rw [abs_of_pos hx]; exact hhi
  · exact h1
  · exact h2

theorem binary32Round_neg (x v : ℝ) (e n : ℤ) (hlo : (2 : ℝ) ^ e ≤ -x)
    (hhi : -x < (2 : ℝ) ^ (e + 1)) (h1 : (n : ℝ) - 1 / 2 < x / (2 : ℝ) ^ (e - 23))
    (h2 : x / (2 : ℝ) ^ (e - 23) < (n : ℝ) + 1 / 2) (hv : (n : ℝ) * (2 : ℝ) ^ (e - 23) = v) :
    binary32Round x = v := by
  have hx : x < 0 := by
    have : 0 < -x := lt_of_lt_of_le (by positivity) hlo
    linarith
  rw [← hv]
  apply binary32Round_eq x e n
  · rw [abs_of_neg hx]; exact hlo
  · rw [abs_of_neg hx]; exact hhi
  · exact h1
  · exact h2

theorem binary32Round_zero : binary32Round 0 = 0 := by
  simp [binary32Round]

theorem round_1024 : binary32Round (1024) = 1024 :=
  binary32Round_pos _ _ (10) (8388608) (by norm_num) (by norm_num) (by norm_num) (by norm_num)
    (by norm_num)

theorem round_neg_1024 : binary32Round (-1024) = -1024 :=
  binary32Round_neg _ _ (10) (-8388608) (by norm_num) (by norm_num) (by norm_num) (by norm_num)
    (by norm_num)

theorem round_eighth : binary32Round (1 / 8) = 1 / 8 :=
  binary32Round_pos _ _ (-3) (8388608) (by norm_num) (by norm_num) (by norm_num) (by norm_num)
    (by norm_num)

theorem round_neg_eighth : binary32Round (-(1 / 8)) = -(1 / 8) :=
  binary32Round_neg _ _ (-3) (-8388608) (by norm_num) (by norm_num) (by norm_num) (by norm_num)
    (by norm_num)

theorem round_1048576 : binary32Round (1048576) = 1048576 :=
  binary32Round_pos _ _ (20) (8388608) (by norm_num) (by norm_num) (by norm_num) (by norm_num)
    (by norm_num)

theorem round_sixtyfourth : binary32Round (1 / 64) = 1 / 64 :=
  binary32Round_pos _ _ (-6) (8388608) (by norm_num) (by norm_num) (by norm_num) (by norm_num)
    (by norm_num)

theorem round_hypotenuse_sq : binary32Round (67108865 / 64) = 1048576 :=
  binary32Round_pos _ _ (20) (8388608) (by norm_num) (by norm_num) (by norm_num) (by norm_num)
    (by norm_num)

theorem round_128 : binary32Round (128) = 128 :=
  binary32Round_pos _ _ (7) (8388608) (by norm_num) (by norm_num) (by norm_num) (by norm_num)
    (by norm_num)

theorem round_neg_128 : binary32Round (-128) = -128 :=
  binary32Round_neg _ _ (7) (-8388608) (by norm_num) (by norm_num) (by norm_num) (by norm_num)
    (by norm_num)

theorem round_one : binary32Round (1) = 1 :=
  binary32Round_pos _ _ (0) (8388608) (by norm_num) (by norm_num) (by norm_num) (by norm_num)
    (by norm_num)

theorem round_neg_one : binary32Round (-1) = -1 :=
  binary32Round_neg _ _ (0) (-8388608) (by norm_num) (by norm_num) (by norm_num) (by norm_num)
    (by norm_num)

theorem round_8192th : binary32Round (1 / 8192) = 1 / 8192 :=
  binary32Round_pos _ _ (-13) (8388608) (by norm_num) (by norm_num) (by norm_num) (by norm_num)
    (by norm_num)

theorem round_neg_8192th : binary32Round (-(1 / 8192)) = -(1 / 8192) :=
  binary32Round_neg _ _ (-13) (-8388608) (by norm_num) (by norm_num) (by norm_num) (by norm_num)
    (by norm_num)

theorem round_1124 : binary32Round (1124) = 1124 :=
  binary32Round_pos _ _ (10) (9207808) (by norm_num) (by norm_num) (by norm_num) (by norm_num)
    (by norm_num)

theorem round_100 : binary32Round (100) = 100 :=
  binary32Round_pos _ _ (6) (13107200) (by norm_num) (by norm_num) (by norm_num) (by norm_num)
    (by norm_num)

theorem sqrt_1048576 : Real.sqrt 1048576 = 1024 := by
  rw [show (1048576 : ℝ) = 1024 * 1024 by norm_num]
  exact Real.sqrt_mul_self (by norm_num)

theorem sqrt_64 : Real.sqrt 64 = 8 := by
  rw [show (64 : ℝ) = 8 * 8 by norm_num]
  exact Real.sqrt_mul_self (by norm_num)

theorem abs_8192th : |(1 / 8192 : ℝ)| = 1 / 8192 := abs_of_pos (by norm_num)

theorem distance_leg_long :
    Binary32.distance ⟨1124, 100⟩ ⟨100, 100⟩ = 1024 := by
  simp only [Binary32.distance, Binary32.sub, fsub, fadd, fmul, sqrtf]
  norm_num [round_1024, round_neg_1024, round_eighth, round_neg_eighth, round_1048576,
    round_sixtyfourth, round_hypotenuse_sq, round_128, round_neg_128, round_one, round_neg_one,
    round_8192th, round_neg_8192th, round_1124, round_100, binary32Round_zero, sqrt_1048576,
    sqrt_64]

theorem distance_hypotenuse :
    Binary32.distance ⟨100, 100⟩ ⟨1124, 100.125⟩ = 1024 := by
  simp only [Binary32.distance, Binary32.sub, fsub, fadd, fmul, sqrtf]
  norm_num [round_1024, round_neg_1024, round_eighth, round_neg_eighth, round_1048576,
    round_sixtyfourth, round_hypotenuse_sq, round_128, round_neg_128, round_one, round_neg_one,
    round_8192th, round_neg_8192th, round_1124, round_100, binary32Round_zero, sqrt_1048576,
    sqrt_64]

theorem distance_hypotenuse_rev :
    Binary32.distance ⟨1124, 100.125⟩ ⟨100, 100⟩ = 1024 := by
  simp only [Binary32.distance, Binary32.sub, fsub, fadd, fmul, sqrtf]
  norm_num [round_1024, round_neg_1024, round_eighth, round_neg_eighth, round_1048576,
    round_sixtyfourth, round_hypotenuse_sq, round_128, round_neg_128, round_one, round_neg_one,
    round_8192th, round_neg_8192th, round_1124, round_100, binary32Round_zero, sqrt_1048576,
    sqrt_64]

theorem distance_leg_long_rev :
    Binary32.distance ⟨100, 100⟩ ⟨1124, 100⟩ = 1024 := by
  simp only [Binary32.distance, Binary32.sub, fsub, fadd, fmul, sqrtf]
  norm_num [round_1024, round_neg_1024, round_eighth, round_neg_eighth, round_1048576,
    round_sixtyfourth, round_hypotenuse_sq, round_128, round_neg_128, round_one, round_neg_one,
    round_8192th, round_neg_8192th, round_1124, round_100, binary32Round_zero, sqrt_1048576,
    sqrt_64]

theorem distance_leg_short :
    Binary32.distance ⟨1124, 100.125⟩ ⟨1124, 100⟩ = 1 / 8 := by
  simp only [Binary32.distance, Binary32.sub, fsub, fadd, fmul, sqrtf]
  norm_num [round_1024, round_neg_1024, round_eighth, round_neg_eighth, round_1048576,
    round_sixtyfourth, round_hypotenuse_sq, round_128, round_neg_128, round_one, round_neg_one,
    round_8192th, round_neg_8192th, round_1124, round_100, binary32Round_zero, sqrt_1048576,
    sqrt_64]

theorem distance_leg_short_rev :
    Binary32.distance ⟨1124, 100⟩ ⟨1124, 100.125⟩ = 1 / 8 := by
  simp only [Binary32.distance, Binary32.sub, fsub, fadd, fmul, sqrtf]
  norm_num [round_1024, round_neg_1024, round_eighth, round_neg_eighth, round_1048576,
    round_sixtyfourth, round_hypotenuse_sq, round_128, round_neg_128, round_one, round_neg_one,
    round_8192th, round_neg_8192th, round_1124, round_100, binary32Round_zero, sqrt_1048576,
    sqrt_64]

theorem relabel_orderA :
    Binary32.relabel ⟨1124, 100.125⟩ ⟨1124, 100⟩ ⟨100, 100⟩
      = { a := ⟨1124, 100⟩, b := ⟨100, 100⟩, c := ⟨1124, 100.125⟩ } := by
  simp only [Binary32.relabel, distance_leg_long, distance_hypotenuse, distance_leg_short]
  norm_num

theorem relabel_orderB :
    Binary32.relabel ⟨1124, 100⟩ ⟨1124, 100.125⟩ ⟨100, 100⟩
      = { a := ⟨1124, 100.125⟩, b := ⟨100, 100⟩, c := ⟨1124, 100⟩ } := by
  simp only [Binary32.relabel, distance_hypotenuse_rev, distance_leg_long_rev,
    distance_leg_short_rev]
  norm_num

theorem renderLabels_orderA :
    Binary32.renderLabels ⟨1124, 100.125⟩ ⟨1124, 100⟩ ⟨100, 100⟩
      = { a := ⟨1124, 100⟩, b := ⟨100, 100⟩, c := ⟨1124, 100.125⟩ } := by
  simp only [Binary32.renderLabels, relabel_orderA, Binary32.windingSwap, Binary32.determinant,
    Binary32.sub, fsub, fmul]
  norm_num [round_1024, round_neg_1024, round_eighth, round_neg_eighth, round_1048576,
    round_sixtyfourth, round_hypotenuse_sq, round_128, round_neg_128, round_one, round_neg_one,
    round_8192th, round_neg_8192th, round_1124, round_100, binary32Round_zero, sqrt_1048576,
    sqrt_64]

theorem renderLabels_orderB :
    Binary32.renderLabels ⟨1124, 100⟩ ⟨1124, 100.125⟩ ⟨100, 100⟩
      = { a := ⟨100, 100⟩, b := ⟨1124, 100.125⟩, c := ⟨1124, 100⟩ } := by
  simp only [Binary32.renderLabels, relabel_orderB, Binary32.windingSwap, Binary32.determinant,
    Binary32.sub, fsub, fmul]
  norm_num [round_1024, round_neg_1024, round_eighth, round_neg_eighth, round_1048576,
    round_sixtyfourth, round_hypotenuse_sq, round_128, round_neg_128, round_one, round_neg_one,
    round_8192th, round_neg_8192th, round_1124, round_100, binary32Round_zero, sqrt_1048576,
    sqrt_64]

/-- In the order `(1124,100.125), (1124,100), (100,100)` the binary32 `Render`
decomposes the triangle: two `RenderRightTriangle` calls, the first on the
degenerate triple `(c, a, d)` with `d = a`. -/
theorem Render_orderA :
    Binary32.Render ⟨1124, 100.125⟩ ⟨1124, 100⟩ ⟨100, 100⟩
      = [ { a := ⟨1124, 100.125⟩, b := ⟨1124, 100⟩, c := ⟨1124, 100⟩ },
          { a := ⟨100, 100⟩, b := ⟨1124, 100.125⟩, c := ⟨1124, 100⟩ } ] := by
  simp only [Binary32.Render, renderLabels_orderA, Binary32.heightBase, Binary32.normalize,
    Binary32.distance, Binary32.dot, Binary32.sub, Binary32.add, Binary32.scale,
    Binary32.divScalar, fsub, fadd, fmul, fdiv, sqrtf, Vector2F.zero_X, Vector2F.zero_Y]
  norm_num [round_1024, round_neg_1024, round_eighth, round_neg_eighth, round_1048576,
    round_sixtyfourth, round_hypotenuse_sq, round_128, round_neg_128, round_one, round_neg_one,
    round_8192th, round_neg_8192th, round_1124, round_100, binary32Round_zero, sqrt_1048576,
    sqrt_64, abs_8192th, FLT_EPSILON]

/-- In the order `(1124,100), (1124,100.125), (100,100)` the binary32 `Render`
takes the right-angle shortcut: one `RenderRightTriangle` call. -/
theorem Render_orderB :
    Binary32.Render ⟨1124, 100⟩ ⟨1124, 100.125⟩ ⟨100, 100⟩
      = [ { a := ⟨100, 100⟩, b := ⟨1124, 100.125⟩, c := ⟨1124, 100⟩ } ] := by
  simp only [Binary32.Render, renderLabels_orderB, Binary32.heightBase, Binary32.normalize,
    Binary32.distance, Binary32.dot, Binary32.sub, Binary32.add, Binary32.scale,
    Binary32.divScalar, fsub, fadd, fmul, fdiv, sqrtf, Vector2F.zero_X, Vector2F.zero_Y]
  norm_num [round_1024, round_neg_1024, round_eighth, round_neg_eighth, round_1048576,
    round_sixtyfourth, round_hypotenuse_sq, round_128, round_neg_128, round_one, round_neg_one,
    round_8192th, round_neg_8192th, round_1124, round_100, binary32Round_zero, sqrt_1048576,
    sqrt_64, abs_8192th, FLT_EPSILON]

end Binary32

/-- C1 (code evaluated at the failing input): the triangle
`p1 = (1124,100.125)`, `p2 = (1124,100)`, `p3 = (100,100)` has an exact right
angle at `p2`, and in exact arithmetic `Render` relabels `p2` as `c`.  In
binary32 the hypotenuse `p3p1` and the leg `p2p3` both have the rounded length
1024, the test `d1 == longest` of line 51 succeeds first and `c` becomes the
acute vertex `p1`; the right-angle test of line 63 then fails
(the dot product is `2^-13`), and `Render` makes two `RenderRightTriangle`
calls instead of one, the first on the degenerate triple `(p1, p2, p2)`. -/
theorem c1_rounded_tie_two_tiles :
    RightAngleAt (Vector2F.mk (1124 : ℝ) 100) ⟨100, 100⟩ ⟨1124, 100.125⟩ ∧
      (TransparentTriangle.renderLabels ⟨1124, 100.125⟩ ⟨1124, 100⟩ ⟨100, 100⟩).c
        = ⟨1124, 100⟩ ∧
      Binary32.distance ⟨1124, 100⟩ ⟨100, 100⟩
        = Binary32.distance ⟨100, 100⟩ ⟨1124, 100.125⟩ ∧
      (Binary32.renderLabels ⟨1124, 100.125⟩ ⟨1124, 100⟩ ⟨100, 100⟩).c = ⟨1124, 100.125⟩ ∧
      Binary32.Render ⟨1124, 100.125⟩ ⟨1124, 100⟩ ⟨100, 100⟩
        = [ { a := ⟨1124, 100.125⟩, b := ⟨1124, 100⟩, c := ⟨1124, 100⟩ },
            { a := ⟨100, 100⟩, b := ⟨1124, 100.125⟩, c := ⟨1124, 100⟩ } ] ∧
      (Binary32.Render ⟨1124, 100.125⟩ ⟨1124, 100⟩ ⟨100, 100⟩).length = 2 := by
  have hr : RightAngleAt (Vector2F.mk (1124 : ℝ) 100) ⟨100, 100⟩ ⟨1124, 100.125⟩ := by
    refine ⟨?_, ?_, ?_⟩
    · norm_num [dot]
    · rw [ne_eq, Vector2F.eq_iff]; norm_num
    · rw [ne_eq, Vector2F.eq_iff]; norm_num
  refine ⟨hr, ?_, ?_, ?_, Binary32.Render_orderA, ?_⟩
  · exact (TransparentTriangle.renderLabels_rightAngle _ _ _ _
      (Or.inr (Or.inl ⟨rfl, hr⟩))).1
  · rw [Binary32.distance_leg_long, Binary32.distance_hypotenuse]
  · rw [Binary32.renderLabels_orderA]
  · rw [Binary32.Render_orderA]; rfl

/-- C15 (code evaluated at the failing input): the triangle
`(1124,100.125), (1124,100), (100,100)` has non-zero area and a unique
strictly longest edge.  In binary32 `Render` relabels the two orders
`(p1, p2, p3)` and `(p2, p1, p3)` differently (`c = p1` and `c = p2`), because
the rounded lengths of the longest and the second longest edge tie and the
first test that succeeds wins; it makes two `RenderRightTriangle` calls for
the first order and one for the second. -/
theorem c15_order_changes_calls :
    triangleArea (Vector2F.mk (1124 : ℝ) 100.125) ⟨1124, 100⟩ ⟨100, 100⟩ ≠ 0 ∧
      UniqueLongestEdge ⟨1124, 100.125⟩ ⟨1124, 100⟩ ⟨100, 100⟩ ∧
      ((⟨1124, 100⟩, ⟨1124, 100.125⟩, ⟨100, 100⟩) : Vector2F ℝ × Vector2F ℝ × Vector2F ℝ)
        ∈ permutations3 ⟨1124, 100.125⟩ ⟨1124, 100⟩ ⟨100, 100⟩ ∧
      (Binary32.renderLabels ⟨1124, 100.125⟩ ⟨1124, 100⟩ ⟨100, 100⟩).c = ⟨1124, 100.125⟩ ∧
      (Binary32.renderLabels ⟨1124, 100⟩ ⟨1124, 100.125⟩ ⟨100, 100⟩).c = ⟨1124, 100⟩ ∧
      (Binary32.Render ⟨1124, 100.125⟩ ⟨1124, 100⟩ ⟨100, 100⟩).length = 2 ∧
      (Binary32.Render ⟨1124, 100⟩ ⟨1124, 100.125⟩ ⟨100, 100⟩).length = 1 := by
  refine ⟨?_, Or.inr (Or.inl ⟨?_, ?_⟩), ?_, ?_, ?_, ?_, ?_⟩
  · norm_num [triangleArea, determinant]
  · rw [distance_lt_iff]; norm_num
  · rw [distance_lt_iff]; norm_num
  · simp [permutations3]
  · rw [Binary32.renderLabels_orderA]
  · rw [Binary32.renderLabels_orderB]
  · rw [Binary32.Render_orderA]; rfl
  · rw [Binary32.Render_orderB]; rfl
